import Mathlib

/-!
# Event calendar service: the event store, the service façade and the workers

A shallow embedding of `internal/domain/event.go`, `internal/domain/reminder.go`,
`internal/storage/memory_repository.go`, `internal/service/event_service.go`,
`internal/worker/reminder_worker.go`, `internal/worker/cleanup_worker.go`,
`internal/http/handlers/event_handler.go` and `pkg/logger/logger.go`.

Modelling conventions.

* `time.Time` is an instant: the number of nanoseconds since
  0001-01-01 00:00:00 UTC, the zero value of `time.Time`. `Before`, `After`
  and `Equal` compare instants, as in Go (no value here carries a monotonic
  clock reading: dates come from parsing and from `time.Date`).
* The Go map `map[string]*domain.Event` is a finite map with unique keys,
  `AList`. The order of its entry list stands for the (unspecified) iteration
  order of the Go map; no theorem below depends on that order.
* Every key of the map holds a record of its own (the pointers stored in the
  map are pairwise distinct allocations), so the store is a map from keys to
  record values.
* A method with a pointer receiver that mutates the repository returns the
  repository after the call together with the Go result.
* `time.Now()` is an explicit input: `clock i` is the reading returned by the
  `i`-th call of `time.Now()` made during the operation.
* Calendar fields (`Year`, ..., `Second`, `Format`) of a `Time` are those of
  the instant read in UTC. A time in another location is read through
  `Time.abs`: a `Location` gives the offset in effect at each instant, and
  `time.DateIn`, `Time.AddDateIn` and the month query take the location of the
  date as a parameter. The day query, the week query and the text of a
  generated identifier are modelled for times in UTC.
* A Go run-time panic is the result `none` of an `Option`-valued operation.
* A pointer returned by `GetByID` is the pointer that the map holds: an
  assignment through it changes the record stored under the key that was
  looked up.
* A channel is the list of the values waiting in its buffer, with its
  capacity. For a channel that is sent to without blocking, the state also
  says whether the one goroutine that receives from it is blocked waiting for
  a value, and which values were handed to that goroutine while it waited. A
  `select` with a send and a `default` case takes the send when the receiver
  is waiting (the value is handed over and does not pass through the buffer)
  or when the buffer is shorter than the capacity, and the `default` case
  otherwise; this covers a channel without buffer, of capacity 0. A goroutine
  is modelled by the step it takes: one case of the `select` of a worker, one
  round of a loop.
-/

namespace EventCalendar

/-! ## time.Time -/

/-- The instant of a `time.Time`, in nanoseconds since 0001-01-01 00:00:00 UTC. -/
structure Time where
  nsec : Int
  deriving DecidableEq, Repr

namespace Time

/-- The zero value `time.Time{}`. -/
def zero : Time := ⟨0⟩

/-- Go `t.IsZero()`. -/
def IsZero (t : Time) : Bool := decide (t.nsec = 0)

/-- Go `t.Before(u)`. -/
def Before (t u : Time) : Bool := decide (t.nsec < u.nsec)

/-- Go `t.After(u)`. -/
def After (t u : Time) : Bool := decide (u.nsec < t.nsec)

/-- Go `t.Equal(u)`. -/
def Equal (t u : Time) : Bool := decide (t.nsec = u.nsec)

/-- Nanoseconds in a day. -/
def nsecPerDay : Int := 86400 * 1000000000

/-- The instant 1970-01-01 00:00:00 UTC: 719162 days after 0001-01-01. -/
def unixEpoch : Int := 719162 * nsecPerDay

/-- Go `t.UnixNano()`: nanoseconds since 1970-01-01 00:00:00 UTC, computed in
`int64` (two's complement wrap-around outside its range). -/
def UnixNano (t : Time) : Int :=
  Int.emod (t.nsec - unixEpoch + 2 ^ 63) (2 ^ 64) - 2 ^ 63

/-- The day of the instant, counted from 0001-01-01, in UTC. -/
def dayNumber (t : Time) : Int := Int.ediv t.nsec nsecPerDay

/-- The second within the day of the instant, in UTC. -/
def secondOfDay (t : Time) : Int := Int.ediv (Int.emod t.nsec nsecPerDay) 1000000000

/-- Year, month and day of the instant in the proleptic Gregorian calendar, in
UTC: Go `t.Date()`. The days are counted from 0000-03-01 (306 days before
0001-01-01) in 400-year cycles of 146097 days. -/
def Date (t : Time) : Int × Int × Int :=
  let z := t.dayNumber + 306
  let era := Int.ediv z 146097
  let doe := Int.emod z 146097
  let yoe := Int.ediv (doe - Int.ediv doe 1460 + Int.ediv doe 36524 - Int.ediv doe 146096) 365
  let doy := doe - (365 * yoe + Int.ediv yoe 4 - Int.ediv yoe 100)
  let mp := Int.ediv (5 * doy + 2) 153
  let d := doy - Int.ediv (153 * mp + 2) 5 + 1
  let m := if mp < 10 then mp + 3 else mp - 9
  let y := yoe + era * 400 + (if m ≤ 2 then 1 else 0)
  (y, m, d)

/-- Go `t.Year()`. -/
def Year (t : Time) : Int := t.Date.1

/-- Go `t.Month()`, January = 1. -/
def Month (t : Time) : Int := t.Date.2.1

/-- Go `t.Day()`. -/
def Day (t : Time) : Int := t.Date.2.2

/-- Go `t.Hour()`. -/
def Hour (t : Time) : Int := Int.ediv t.secondOfDay 3600

/-- Go `t.Minute()`. -/
def Minute (t : Time) : Int := Int.ediv (Int.emod t.secondOfDay 3600) 60

/-- Go `t.Second()`. -/
def Second (t : Time) : Int := Int.emod t.secondOfDay 60

/-- The helper `appendInt` of Go package `time`: the decimal digits of `x`,
padded with zeros on the left to `width` digits, after a minus sign when `x`
is negative. -/
def appendInt (x : Int) (width : Nat) : String :=
  let digits := Nat.toDigits 10 x.natAbs
  (if x < 0 then "-" else "") ++
    String.mk (List.replicate (width - digits.length) (Char.ofNat 48) ++ digits)

/-- Go `t.Format("20060102150405")`: year, month, day, hour, minute and second
as digits, for a time whose location is UTC. -/
def Format (t : Time) : String :=
  appendInt t.Year 4 ++ appendInt t.Month 2 ++ appendInt t.Day 2 ++
    appendInt t.Hour 2 ++ appendInt t.Minute 2 ++ appendInt t.Second 2

end Time

/-! ## internal/domain/event.go -/

/-- The error values of the program: the sentinels of package `domain` and the
values made in place by `errors.New`. -/
inductive Error where
  | ErrEventNotFound
  | ErrInvalidDate
  | ErrInvalidUserID
  | ErrInvalidEventText
  | ErrInvalidReminderTime
  | errorsNew (msg : String)
  deriving DecidableEq, Repr

/-- The record `domain.Event`. -/
structure Event where
  ID : String
  UserID : String
  Date : Time
  Text : String
  ReminderTime : Option Time
  CreatedAt : Time
  UpdatedAt : Time
  Archived : Bool
  deriving DecidableEq, Repr

/-- Go `(*Event).Validate`; `none` is the nil error. -/
def Event.Validate (e : Event) : Option Error :=
  if e.UserID == "" then some Error.ErrInvalidUserID
  else if e.Text == "" then some Error.ErrInvalidEventText
  else if e.Date.IsZero then some Error.ErrInvalidDate
  else none

/-! ## internal/storage/memory_repository.go -/

/-- One entry of the map `events`: a key and the record stored under it. -/
abbrev Entry := Sigma (fun _ : String => Event)

/-- The struct `MemoryRepository` (the mutex is not part of the state). -/
structure MemoryRepository where
  events : AList (fun _ : String => Event)

namespace MemoryRepository

/-- Go `NewMemoryRepository`. -/
def NewMemoryRepository : MemoryRepository := ⟨∅⟩

/-- Go `(*MemoryRepository).key`. -/
def key (userID eventID : String) : String := userID ++ ":" ++ eventID

/-- Go `(*MemoryRepository).Create`: the repository after the call and the
returned error. -/
def Create (r : MemoryRepository) (event : Event) : MemoryRepository × Option Error :=
  let k := key event.UserID event.ID
  if k ∈ r.events then (r, some (Error.errorsNew "event already exists"))
  else (⟨r.events.insert k event⟩, none)

/-- Go `(*MemoryRepository).Update`. -/
def Update (r : MemoryRepository) (event : Event) : MemoryRepository × Option Error :=
  let k := key event.UserID event.ID
  if k ∉ r.events then (r, some Error.ErrEventNotFound)
  else (⟨r.events.insert k event⟩, none)

/-- Go `(*MemoryRepository).Delete`. -/
def Delete (r : MemoryRepository) (userID eventID : String) : MemoryRepository × Option Error :=
  let k := key userID eventID
  if k ∉ r.events then (r, some Error.ErrEventNotFound)
  else (⟨r.events.erase k⟩, none)

/-- Go `(*MemoryRepository).GetByID`: the returned event (`none` for nil) and
the returned error. -/
def GetByID (r : MemoryRepository) (userID eventID : String) : Option Event × Option Error :=
  match r.events.lookup (key userID eventID) with
  | none => (none, some Error.ErrEventNotFound)
  | some event => (some event, none)

/-- The body of the loop of `GetByDateRange`: one map entry visited with the
slice `result` built so far. -/
def rangeStep (userID : String) (start end_ : Time) (result : List Event) (kv : Entry) :
    List Event :=
  if kv.2.UserID == userID && !kv.2.Archived then
    if (kv.2.Date.Equal start || kv.2.Date.After start) && kv.2.Date.Before end_ then
      result ++ [kv.2]
    else result
  else result

/-- Go `(*MemoryRepository).GetByDateRange`: the loop over the map, from the
nil slice. -/
def GetByDateRange (r : MemoryRepository) (userID : String) (start end_ : Time) :
    List Event × Option Error :=
  (r.events.entries.foldl (rangeStep userID start end_) [], none)

/-- The body of the loop of `ArchiveOldEvents`: the record `event` after the
visit (its `Archived` field is set through the stored pointer). -/
def archiveVisit (before : Time) (event : Event) : Event :=
  if event.Date.Before before && !event.Archived then { event with Archived := true }
  else event

/-- One map entry after the visit of the loop of `ArchiveOldEvents`. -/
def archiveStep (before : Time) (kv : Entry) : Entry := ⟨kv.1, archiveVisit before kv.2⟩

theorem keys_map_archiveStep (before : Time) (l : List Entry) :
    (l.map (archiveStep before)).keys = l.keys := by
  induction l with
  | nil => rfl
  | cons kv l ih => simp [List.keys_cons, archiveStep, ih]

/-- Go `(*MemoryRepository).ArchiveOldEvents`: every entry of the map is
visited once; the keys stay as they are. -/
def ArchiveOldEvents (r : MemoryRepository) (before : Time) : MemoryRepository × Option Error :=
  (⟨⟨r.events.entries.map (archiveStep before), by
      have h := r.events.nodupKeys
      unfold List.NodupKeys at h ⊢
      rw [keys_map_archiveStep]
      exact h⟩⟩, none)

end MemoryRepository

/-! ## internal/service/event_service.go -/

/-- The constant `charset` of `randomString`. -/
def charset : String := "abcdefghijklmnopqrstuvwxyzABCDEFGHIJKLMNOPQRSTUVWXYZ0123456789"

/-- The expression `charset[time.Now().UnixNano()%int64(len(charset))]` at the
clock reading `now`. Go's `%` truncates toward zero; a negative index is a
run-time panic, `none`. -/
def charsetAt (now : Time) : Option Char :=
  let i := Int.tmod now.UnixNano charset.length
  if 0 ≤ i then charset.data[i.toNat]? else none

/-- The bytes written by the first `n` rounds of the loop of `randomString`:
round `i` writes the byte chosen at the clock reading `clock i`. -/
def randomBytes (clock : Nat → Time) : Nat → Option (List Char)
  | 0 => some []
  | n + 1 =>
    match randomBytes clock n, charsetAt (clock n) with
    | some b, some c => some (b ++ [c])
    | _, _ => none

/-- Go `randomString(length)`. -/
def randomString (clock : Nat → Time) (length : Nat) : Option String :=
  (randomBytes clock length).map String.mk

/-- Go `generateID()`: the reading `clock 0` is formatted, the readings
`clock 1`, ..., `clock 6` choose the six characters. -/
def generateID (clock : Nat → Time) : Option String :=
  (randomString (fun i => clock (i + 1)) 6).map (fun suffix => (clock 0).Format ++ "-" ++ suffix)

/-- The struct `EventService`; its repository is the in-memory one. -/
structure EventService where
  repo : MemoryRepository

namespace EventService

/-- Go `NewEventService`. -/
def NewEventService (repo : MemoryRepository) : EventService := ⟨repo⟩

/-- Go `(*EventService).CreateEvent`: the service after the call, the returned
event (`none` for nil) and the returned error; the whole result is `none` when
`generateID` panics. The readings `clock 0`, ..., `clock 6` are taken by
`generateID`, `clock 7` is `CreatedAt` and `clock 8` is `UpdatedAt`. -/
def CreateEvent (s : EventService) (clock : Nat → Time) (userID text : String) (date : Time)
    (reminderTime : Option Time) : Option (EventService × Option Event × Option Error) :=
  (generateID clock).map fun id =>
    let event : Event :=
      { ID := id, UserID := userID, Text := text, Date := date, ReminderTime := reminderTime,
        CreatedAt := clock 7, UpdatedAt := clock 8, Archived := false }
    match event.Validate with
    | some err => (s, none, some err)
    | none =>
      match s.repo.Create event with
      | (repo, some err) => (⟨repo⟩, none, some err)
      | (repo, none) => (⟨repo⟩, some event, none)

/-- Go `(*EventService).DeleteEvent`. -/
def DeleteEvent (s : EventService) (userID eventID : String) : EventService × Option Error :=
  match s.repo.GetByID userID eventID with
  | (_, some err) => (s, some err)
  | (_, none) => (⟨(s.repo.Delete userID eventID).1⟩, (s.repo.Delete userID eventID).2)

end EventService

/-! ## Package time: building a time from calendar fields -/

namespace Time

/-- Go `t.Nanosecond()`. -/
def Nanosecond (t : Time) : Int := Int.emod t.nsec 1000000000

/-- Go `t.Add(d)`, the duration `d` in nanoseconds. -/
def Add (t : Time) (d : Int) : Time := ⟨t.nsec + d⟩

end Time

/-- The duration `time.Hour`, in nanoseconds. -/
def time.Hour : Int := 3600 * 1000000000

/-- Go `isLeap` of package `time`. -/
def time.isLeap (year : Int) : Bool :=
  year % 4 == 0 && (year % 100 != 0 || year % 400 == 0)

/-- The table `daysBefore` of package `time`: `daysBefore m` is the number of
days in a non-leap year before month `m + 1`. -/
def time.daysBefore (m : Int) : Int :=
  match m with
  | 0 => 0
  | 1 => 31
  | 2 => 59
  | 3 => 90
  | 4 => 120
  | 5 => 151
  | 6 => 181
  | 7 => 212
  | 8 => 243
  | 9 => 273
  | 10 => 304
  | 11 => 334
  | _ => 365

/-- Go `daysSinceEpoch` of package `time`, counted from 0001-01-01: the days
before January 1 of `year`, added up over the 400-year, 100-year and 4-year
cycles and the remaining years. -/
def time.daysSinceEpoch (year : Int) : Int :=
  let y := year - 1
  let n400 := y / 400
  let y1 := y - 400 * n400
  let n100 := y1 / 100
  let y2 := y1 - 100 * n100
  let n4 := y2 / 4
  let y3 := y2 - 4 * n4
  146097 * n400 + 36524 * n100 + 1461 * n4 + 365 * y3

/-- Go `time.Date(year, month, day, hour, min, sec, nsec, time.UTC)`: the month
is normalised into the year, the days before the year, before the month and
before the day are added up, and the time of day is added; fields outside
their usual range carry over. -/
def time.Date (year month day hour min sec nsec : Int) : Time :=
  let year' := year + (month - 1) / 12
  let m := (month - 1) % 12
  let d := time.daysSinceEpoch year' + time.daysBefore m +
    (if time.isLeap year' && decide (2 ≤ m) then 1 else 0) + (day - 1)
  ⟨d * Time.nsecPerDay + (hour * 3600 + min * 60 + sec) * 1000000000 + nsec⟩

/-- Go `t.AddDate(years, months, days)`. -/
def Time.AddDate (t : Time) (years months days : Int) : Time :=
  time.Date (t.Year + years) (t.Month + months) (t.Day + days) t.Hour t.Minute t.Second
    t.Nanosecond

/-! ## Package time: locations -/

/-- The constant `alpha` of package `time`, the least instant of a zone period. -/
def time.alpha : Int := -(2 ^ 63)

/-- The constant `omega` of package `time`, the greatest instant of a zone period. -/
def time.omega : Int := 2 ^ 63 - 1

/-- A `*time.Location` as `time.Date` and the calendar methods use it, Go
`(*Location).lookup`: for an instant in seconds since 1970-01-01 00:00:00 UTC,
the offset in seconds east of UTC in effect at that instant, and the first
instant and the end instant of the period in which this offset is in
effect. -/
structure Location where
  lookup : Int → Int × Int × Int

/-- The location `time.UTC`. -/
def time.UTC : Location := ⟨fun _ => (0, time.alpha, time.omega)⟩

/-- Go `time.FixedZone(name, offset)`: one offset at every instant. -/
def time.FixedZone (offset : Int) : Location := ⟨fun _ => (offset, time.alpha, time.omega)⟩

/-- Go `t.Unix()`: the seconds since 1970-01-01 00:00:00 UTC. -/
def Time.Unix (t : Time) : Int := Int.ediv (t.nsec - Time.unixEpoch) 1000000000

/-- Go `t.abs()` for a time whose location is `loc`: the instant moved by the
offset that `loc` has in effect at it. The calendar fields of the time in `loc`
(`t.Year()`, `t.Month()`, `t.Day()`, `t.Clock()`) are the UTC fields of this
instant. -/
def Time.abs (t : Time) (loc : Location) : Time :=
  ⟨t.nsec + (loc.lookup t.Unix).1 * 1000000000⟩

/-- Go `time.Date(year, month, day, hour, min, sec, nsec, loc)` for any
location: the time is built as in UTC, the offset in effect at that instant is
looked up, looked up again at the instant moved by the offset when that falls
outside the period found, and subtracted. -/
def time.DateIn (year month day hour min sec nsec : Int) (loc : Location) : Time :=
  let t := time.Date year month day hour min sec nsec
  let unix := t.Unix
  let offset := (loc.lookup unix).1
  let start := (loc.lookup unix).2.1
  let end_ := (loc.lookup unix).2.2
  if offset ≠ 0 then
    let utc := unix - offset
    let offset' := if utc < start ∨ utc ≥ end_ then (loc.lookup utc).1 else offset
    ⟨t.nsec - offset' * 1000000000⟩
  else t

/-- Go `t.AddDate(years, months, days)` for a time whose location is `loc`. -/
def Time.AddDateIn (t : Time) (years months days : Int) (loc : Location) : Time :=
  time.DateIn ((t.abs loc).Year + years) ((t.abs loc).Month + months)
    ((t.abs loc).Day + days) (t.abs loc).Hour (t.abs loc).Minute (t.abs loc).Second
    t.Nanosecond loc

/-! ## internal/service/event_service.go: the range queries and the update -/

namespace EventService

/-- Go `(*EventService).GetEventsForDay`. -/
def GetEventsForDay (s : EventService) (userID : String) (date : Time) :
    List Event × Option Error :=
  let start := time.Date date.Year date.Month date.Day 0 0 0 0
  let end_ := start.Add (24 * time.Hour)
  s.repo.GetByDateRange userID start end_

/-- Go `(*EventService).GetEventsForWeek`. -/
def GetEventsForWeek (s : EventService) (userID : String) (date : Time) :
    List Event × Option Error :=
  let start := time.Date date.Year date.Month date.Day 0 0 0 0
  let end_ := start.Add (7 * 24 * time.Hour)
  s.repo.GetByDateRange userID start end_

/-- Go `(*EventService).GetEventsForMonth` for a `date` whose location,
`date.Location()`, is `loc`; `start` and `nextMonth` are built by `time.Date` in
that location and have it as their location. -/
def GetEventsForMonth (s : EventService) (userID : String) (date : Time) (loc : Location) :
    List Event × Option Error :=
  let start := time.DateIn (date.abs loc).Year (date.abs loc).Month 1 0 0 0 0 loc
  let nextMonth := start.AddDateIn 0 1 0 loc
  let end_ := time.DateIn (nextMonth.abs loc).Year (nextMonth.abs loc).Month 1 0 0 0 0 loc
  s.repo.GetByDateRange userID start end_

end EventService

namespace EventService

/-- Go `(*EventService).UpdateEvent`: the service after the call, the returned
event and the returned error. `GetByID` returns the pointer that the map holds,
so the four assignments change the record stored under `key userID eventID`
before `Validate` runs; `clock 0` is the reading of `time.Now()`. The last case
is not reached: `GetByID` returns a record whenever its error is nil. -/
def UpdateEvent (s : EventService) (clock : Nat → Time) (userID eventID text : String)
    (date : Time) (reminderTime : Option Time) : EventService × Option Event × Option Error :=
  match s.repo.GetByID userID eventID with
  | (_, some err) => (s, none, some err)
  | (some stored, none) =>
    let event : Event :=
      { stored with Text := text, Date := date, ReminderTime := reminderTime,
                    UpdatedAt := clock 0 }
    let repo : MemoryRepository :=
      ⟨s.repo.events.replace (MemoryRepository.key userID eventID) event⟩
    match event.Validate with
    | some err => (⟨repo⟩, none, some err)
    | none =>
      match repo.Update event with
      | (repo', some err) => (⟨repo'⟩, none, some err)
      | (repo', none) => (⟨repo'⟩, some event, none)
  | (none, none) => (s, none, none)

end EventService

/-! ## internal/domain/reminder.go and pkg/logger/logger.go: the data -/

/-- The record `domain.ReminderTask`. -/
structure ReminderTask where
  EventID : String
  UserID : String
  Text : String
  Time : Time
  deriving DecidableEq, Repr

/-- The type `logger.LogLevel`. -/
inductive LogLevel where
  | LevelInfo
  | LevelError
  deriving DecidableEq, Repr

/-- One call `Log(level, message, fields)` of the interface `logger.Logger`; the
map `fields` is the list of its keys with their values as `%v` prints them (nil
is the empty list). -/
structure LogCall where
  level : LogLevel
  message : String
  fields : List (String × String)
  deriving DecidableEq, Repr

set_option linter.dupNamespace false in
/-- Go `err.Error()`: the text of an error value. -/
def Error.Error : Error → String
  | .ErrEventNotFound => "event not found"
  | .ErrInvalidDate => "invalid date format"
  | .ErrInvalidUserID => "invalid user id"
  | .ErrInvalidEventText => "invalid event text"
  | .ErrInvalidReminderTime => "invalid reminder time"
  | .errorsNew msg => msg

/-! ## internal/worker/reminder_worker.go -/

/-- The largest `time.Duration`, `1<<63 - 1` nanoseconds. -/
def time.maxDuration : Int := 2 ^ 63 - 1

/-- The smallest `time.Duration`, `-1 << 63` nanoseconds. -/
def time.minDuration : Int := -(2 ^ 63)

/-- Go `t.Sub(u)`: the duration `t - u` in nanoseconds; a difference outside
the range of `time.Duration` gives the largest or the smallest duration. -/
def Time.Sub (t u : Time) : Int :=
  if t.nsec - u.nsec > time.maxDuration then time.maxDuration
  else if t.nsec - u.nsec < time.minDuration then time.minDuration
  else t.nsec - u.nsec

/-- The state of the reminder dispatcher as its environment sees it: the tasks
waiting in the channel `taskChan`, the calls of `sender.SendReminder` made so
far, the calls of `logger.Log` made so far, the tasks for which a goroutine
`scheduleReminder` was started, and whether the channel `done` is closed. -/
structure ReminderWorker where
  taskChan : List ReminderTask
  sent : List ReminderTask
  logged : List LogCall
  scheduled : List ReminderTask
  done : Bool
  deriving DecidableEq, Repr

namespace ReminderWorker

/-- The case `task := <-w.taskChan` of the `select` in Go
`(*ReminderWorker).process`, taken at the clock reading `now`: the first task of
the channel is received and is sent through `sender` or handed to
`scheduleReminder`. On an empty channel the case is not ready and nothing
happens. -/
def process (sender : ReminderTask → Option Error) (now : Time) (w : ReminderWorker) :
    ReminderWorker :=
  match w.taskChan with
  | [] => w
  | task :: rest =>
    if task.Time.Before now || task.Time.Equal now then
      match sender task with
      | some err =>
        { w with
          taskChan := rest
          sent := w.sent ++ [task]
          logged := w.logged ++
            [⟨LogLevel.LevelError, "Failed to send reminder",
              [("error", err.Error), ("event_id", task.EventID)]⟩] }
      | none => { w with taskChan := rest, sent := w.sent ++ [task] }
    else
      { w with taskChan := rest, scheduled := w.scheduled ++ [task] }

/-- Go `(*ReminderWorker).scheduleReminder`, with `now` the reading of its own
`time.Now()`: the duration slept and the task sent to `taskChan` afterwards, or
`none` when the routine returns without sending. -/
def scheduleReminder (now : Time) (task : ReminderTask) : Option (Int × ReminderTask) :=
  let delay := task.Time.Sub now
  if delay > 0 then some (delay, task) else none

end ReminderWorker

/-! ## internal/http/handlers/event_handler.go -/

/-- What a handler writes: `sendSuccess` with the entries of `data`, or
`sendError` with a message and a status code. -/
inductive Response where
  | sendSuccess (data : List (String × String))
  | sendError (message : String) (statusCode : Nat)
  deriving DecidableEq, Repr

/-- The struct `EventHandler` as its environment sees it: the service, the
tasks waiting in the buffer of the channel `reminderChan`, oldest first, with
the capacity of the channel, whether the dispatcher, the one goroutine that
receives from the channel, is blocked waiting for a task, the tasks that were
handed to the dispatcher while it was waiting, and the calls of `logger.Log`
made so far. -/
structure EventHandler where
  service : EventService
  reminderChan : List ReminderTask
  capacity : Nat
  receiving : Bool
  received : List ReminderTask
  logged : List LogCall

namespace EventHandler

/-- The statement `select { case h.reminderChan <- task: default: h.logger.Log(...) }`
of both handlers. The send is taken when the dispatcher is waiting for a task,
which is then handed to it without passing through the buffer, or else when the
buffer holds fewer tasks than the capacity of the channel; otherwise the
`default` case logs. -/
def sendOrLog (h : EventHandler) (task : ReminderTask) : EventHandler :=
  if h.receiving then
    { h with receiving := false, received := h.received ++ [task] }
  else if h.reminderChan.length < h.capacity then
    { h with reminderChan := h.reminderChan ++ [task] }
  else
    { h with logged := h.logged ++ [⟨LogLevel.LevelError, "Reminder channel full", []⟩] }

/-- The test `errors.Is(err, ErrInvalidDate) || errors.Is(err, ErrInvalidUserID) ||
errors.Is(err, ErrInvalidEventText)` of both handlers. -/
def isInvalidInput (err : Error) : Bool :=
  err == Error.ErrInvalidDate || err == Error.ErrInvalidUserID ||
    err == Error.ErrInvalidEventText

/-- Go `(*EventHandler).CreateEvent` from the call of `h.service.CreateEvent`
on, for a request that was decoded and whose date and reminder time were parsed
(`reminderTime` is `none` when the request has none). The result is `none` when
the handler panics. -/
def CreateEvent (h : EventHandler) (clock : Nat → Time) (userID text : String) (date : Time)
    (reminderTime : Option Time) : Option (EventHandler × Response) :=
  match h.service.CreateEvent clock userID text date reminderTime with
  | none => none
  | some (service, _, some err) =>
    if isInvalidInput err then
      some ({ h with service := service }, Response.sendError err.Error 400)
    else
      some ({ h with service := service }, Response.sendError "Failed to create event" 500)
  | some (_, none, none) => none
  | some (service, some event, none) =>
    let h1 : EventHandler := { h with service := service }
    let h2 : EventHandler :=
      match reminderTime with
      | some rt => h1.sendOrLog ⟨event.ID, event.UserID, event.Text, rt⟩
      | none => h1
    some (h2, Response.sendSuccess
      [("event_id", event.ID), ("message", "Event created successfully")])

/-- Go `(*EventHandler).UpdateEvent` from the call of `h.service.UpdateEvent`
on, for a request that was decoded and parsed. -/
def UpdateEvent (h : EventHandler) (clock : Nat → Time) (userID eventID text : String)
    (date : Time) (reminderTime : Option Time) : Option (EventHandler × Response) :=
  match h.service.UpdateEvent clock userID eventID text date reminderTime with
  | (service, _, some err) =>
    if err == Error.ErrEventNotFound then
      some ({ h with service := service }, Response.sendError err.Error 503)
    else if isInvalidInput err then
      some ({ h with service := service }, Response.sendError err.Error 400)
    else
      some ({ h with service := service }, Response.sendError "Failed to update event" 500)
  | (_, none, none) => none
  | (service, some event, none) =>
    let h1 : EventHandler := { h with service := service }
    let h2 : EventHandler :=
      match reminderTime with
      | some rt => h1.sendOrLog ⟨event.ID, event.UserID, event.Text, rt⟩
      | none => h1
    some (h2, Response.sendSuccess [("message", "Event updated successfully")])

end EventHandler

/-! ## pkg/logger/logger.go -/

/-- The record `logger.LogEntry`. -/
structure LogEntry where
  Level : LogLevel
  Timestamp : Time
  Message : String
  Fields : List (String × String)
  deriving DecidableEq, Repr

/-- Go `levelString`. -/
def levelString : LogLevel → String
  | .LevelInfo => "INFO"
  | .LevelError => "ERROR"

/-- Go `t.Format("2006-01-02 15:04:05")`, for a time whose location is UTC. -/
def Time.FormatDateTime (t : Time) : String :=
  Time.appendInt t.Year 4 ++ "-" ++ Time.appendInt t.Month 2 ++ "-" ++
    Time.appendInt t.Day 2 ++ " " ++ Time.appendInt t.Hour 2 ++ ":" ++
    Time.appendInt t.Minute 2 ++ ":" ++ Time.appendInt t.Second 2

/-- The struct `AsyncLogger` as its environment sees it: the entries waiting in
the buffer of the channel `logChan`, oldest first, the capacity of the channel,
whether the channel was closed, whether the goroutine `process`, the one
receiver of the channel, is blocked waiting for an entry, the entries that were
handed to that goroutine while it was waiting and that it has not printed yet,
and the lines written by `fmt.Printf` so far. -/
structure AsyncLogger where
  logChan : List LogEntry
  capacity : Nat
  closed : Bool
  receiving : Bool
  received : List LogEntry
  output : List String
  deriving DecidableEq, Repr

namespace AsyncLogger

/-- Go `NewAsyncLogger(bufferSize)`: the channel is made and the goroutine
`process` is started; it has not reached its receive yet. -/
def NewAsyncLogger (bufferSize : Nat) : AsyncLogger :=
  { logChan := [], capacity := bufferSize, closed := false, receiving := false,
    received := [], output := [] }

/-- The line that the `default` case of `Log` prints. -/
def fallbackLine (level : LogLevel) (message : String) : String :=
  "[FALLBACK] " ++ levelString level ++ ": " ++ message ++ "\n"

/-- Go `(*AsyncLogger).Log`, with `now` the reading of `time.Now()`. A send on
a closed channel panics, `none`. The send is taken when the goroutine `process`
is waiting for an entry, which is then handed to it without passing through the
buffer, or else when the buffer holds fewer entries than the capacity of the
channel; otherwise the `default` case prints. -/
def Log (l : AsyncLogger) (now : Time) (level : LogLevel) (message : String)
    (fields : List (String × String)) : Option AsyncLogger :=
  if l.closed then none
  else if l.receiving then
    some { l with receiving := false, received := l.received ++ [⟨level, now, message, fields⟩] }
  else if l.logChan.length < l.capacity then
    some { l with logChan := l.logChan ++ [⟨level, now, message, fields⟩] }
  else
    some { l with output := l.output ++ [fallbackLine level message] }

/-- The string `fieldsStr` that the loop of `process` builds for one entry. -/
def fieldsStr (fields : List (String × String)) : String :=
  if fields.length > 0 then
    fields.foldl (fun acc kv => acc ++ kv.1 ++ "=" ++ kv.2 ++ " ") " "
  else ""

/-- The line that the loop of `process` prints for one entry. -/
def render (entry : LogEntry) : String :=
  "[" ++ entry.Timestamp.FormatDateTime ++ "] [" ++ levelString entry.Level ++ "] " ++
    entry.Message ++ fieldsStr entry.Fields ++ "\n"

/-- One round of the loop `for entry := range l.logChan` of Go
`(*AsyncLogger).process`: the entry that was handed to the goroutine, or else
the first entry of the buffer, is printed. With no entry at hand and an empty
buffer the goroutine blocks in its receive; on a channel that is closed and
empty the loop ends. -/
def processOne (l : AsyncLogger) : AsyncLogger :=
  match l.received with
  | entry :: rest => { l with received := rest, output := l.output ++ [render entry] }
  | [] =>
    match l.logChan with
    | entry :: rest => { l with logChan := rest, output := l.output ++ [render entry] }
    | [] => if l.closed then l else { l with receiving := true }

/-- The loop of Go `(*AsyncLogger).process` run for `n` rounds. -/
def process (l : AsyncLogger) : Nat → AsyncLogger
  | 0 => l
  | n + 1 => process (processOne l) n

end AsyncLogger

/-! ## internal/worker: the stop signal -/

/-- Go `close(ch)` on a channel that is closed (`true`) or open (`false`):
closing a closed channel panics, `none`. -/
def closeChan (closed : Bool) : Option Bool :=
  if closed then none else some true

/-- The struct `CleanupWorker`: its two durations in nanoseconds and whether
its channel `done` is closed. -/
structure CleanupWorker where
  interval : Int
  archiveAfter : Int
  done : Bool
  deriving DecidableEq, Repr

/-- Go `(*CleanupWorker).Stop`. -/
def CleanupWorker.Stop (w : CleanupWorker) : Option CleanupWorker :=
  (closeChan w.done).map fun done => { w with done := done }

/-- Go `(*ReminderWorker).Stop`. -/
def ReminderWorker.Stop (w : ReminderWorker) : Option ReminderWorker :=
  (closeChan w.done).map fun done => { w with done := done }

/-! ## Notions used in the statements -/

/-- The condition under which the loop of `GetByDateRange` appends a record:
the two nested `if` conditions together. -/
def MemoryRepository.selected (userID : String) (start end_ : Time) (ev : Event) : Bool :=
  (ev.UserID == userID && !ev.Archived) &&
    ((ev.Date.Equal start || ev.Date.After start) && ev.Date.Before end_)

/-- The nine readings that one call of `CreateEvent` takes come from a wall
clock that is not set before 1970: `UnixNano` is not negative at any of them,
so that indexing `charset` does not panic. -/
def WallClock (clock : Nat → Time) : Prop := ∀ i, i < 9 → 0 ≤ (clock i).UnixNano

/-! ## Concrete values -/

/-- The date 2024-01-15 00:00:00 UTC (Unix time 1705276800). -/
def jan15 : Time := ⟨Time.unixEpoch + 1705276800 * 1000000000⟩

/-- An event of user `user1` on 2024-01-15. -/
def sampleEvent : Event :=
  { ID := "e1", UserID := "user1", Date := jan15, Text := "Test event", ReminderTime := none,
    CreatedAt := jan15, UpdatedAt := jan15, Archived := false }

/-- The same event, archived. -/
def archivedEvent : Event := { sampleEvent with Archived := true }

/-- The store made by `Create(sampleEvent)` on the empty repository. -/
def sampleRepo : MemoryRepository :=
  (MemoryRepository.NewMemoryRepository.Create sampleEvent).1

/-- The store made by `Create(archivedEvent)` on the empty repository. -/
def archivedRepo : MemoryRepository :=
  (MemoryRepository.NewMemoryRepository.Create archivedEvent).1

/-- A clock that starts at 2024-01-15 10:30:00.123456789 UTC and advances by
10 ns from one reading to the next. -/
def firstClock (i : Nat) : Time :=
  ⟨Time.unixEpoch + 1705314600 * 1000000000 + 123456789 + 10 * i⟩

/-- The same clock 620 ns later: every reading is later than every reading of
`firstClock` taken by one call of `CreateEvent`. -/
def secondClock (i : Nat) : Time :=
  ⟨Time.unixEpoch + 1705314600 * 1000000000 + 123456789 + 620 + 10 * i⟩

/-- The event that `CreateEvent` makes for `user1` at the readings of
`firstClock`. -/
def firstCreated : Event :=
  { ID := "20240115103000-X7hrBL", UserID := "user1", Date := jan15, Text := "Event 1",
    ReminderTime := none, CreatedAt := firstClock 7, UpdatedAt := firstClock 8,
    Archived := false }

/-- The service whose store holds `firstCreated` and nothing else. -/
def afterFirstCreate : EventService :=
  ⟨(MemoryRepository.NewMemoryRepository.Create firstCreated).1⟩

/-! ## Notions used in the statements about the service -/

/-- Every record of the store sits under the key built from its own user and
event identifiers. -/
def MemoryRepository.Keyed (r : MemoryRepository) : Prop :=
  ∀ k ev, r.events.lookup k = some ev → k = MemoryRepository.key ev.UserID ev.ID

/-- The states of the service that are reached from the empty store by calls
of `CreateEvent`, `UpdateEvent` and `DeleteEvent` with any arguments, successful
or not, and by sweeps of `ArchiveOldEvents`. -/
inductive EventService.Reachable : EventService → Prop
  | empty : EventService.Reachable ⟨MemoryRepository.NewMemoryRepository⟩
  | createEvent {s : EventService} (clock : Nat → Time) (userID text : String) (date : Time)
      (reminderTime : Option Time) (r : EventService × Option Event × Option Error) :
      EventService.Reachable s →
      s.CreateEvent clock userID text date reminderTime = some r →
      EventService.Reachable r.1
  | updateEvent {s : EventService} (clock : Nat → Time) (userID eventID text : String)
      (date : Time) (reminderTime : Option Time) :
      EventService.Reachable s →
      EventService.Reachable (s.UpdateEvent clock userID eventID text date reminderTime).1
  | deleteEvent {s : EventService} (userID eventID : String) :
      EventService.Reachable s → EventService.Reachable (s.DeleteEvent userID eventID).1
  | archiveOldEvents {s : EventService} (cutoff : Time) :
      EventService.Reachable s →
      EventService.Reachable ⟨(s.repo.ArchiveOldEvents cutoff).1⟩

/-- The record that the rejected update of `firstCreated` leaves in the store:
its text is empty. -/
def emptiedEvent : Event := { firstCreated with Text := "", UpdatedAt := secondClock 0 }

/-- The service whose store holds `emptiedEvent` and nothing else. -/
def afterRejectedUpdate : EventService :=
  ⟨(MemoryRepository.NewMemoryRepository.Create emptiedEvent).1⟩

/-! ## Notions and concrete values used in the statements about times and workers -/

/-- The time 00:00:00 of the calendar day of `t`, in UTC. -/
def Time.midnight (t : Time) : Time := ⟨t.dayNumber * Time.nsecPerDay⟩

/-- The date 2024-01-16 00:00:00 UTC. -/
def jan16 : Time := jan15.Add (24 * time.Hour)

/-- The time 2024-12-15 13:30:00 UTC. -/
def dec15 : Time := time.Date 2024 12 15 13 30 0 0

/-- An event of user `user1` dated `i` days after 2024-01-15. -/
def weekEvent (i : Nat) : Event :=
  { ID := "w" ++ toString i, UserID := "user1", Date := jan15.Add (i * (24 * time.Hour)),
    Text := "Event", ReminderTime := none, CreatedAt := jan15, UpdatedAt := jan15,
    Archived := false }

/-- The store made by `Create` of the seven events `weekEvent 0`, ...,
`weekEvent 6` on the empty repository, as in the test
`TestEventService_GetEventsForWeek`. -/
def weekRepo : MemoryRepository :=
  (List.range 7).foldl (fun r i => (r.Create (weekEvent i)).1)
    MemoryRepository.NewMemoryRepository

/-- A reminder task for `sampleEvent`, due one nanosecond after 2024-01-15
00:00:00 UTC. -/
def sampleTask : ReminderTask :=
  { EventID := "e1", UserID := "user1", Text := "Test event", Time := jan15.Add 1 }

/-- A reminder dispatcher with `sampleTask` alone in its channel. -/
def sampleWorker : ReminderWorker :=
  { taskChan := [sampleTask], sent := [], logged := [], scheduled := [], done := false }

/-- A sender that always succeeds, as `ConsoleReminderSender.SendReminder` does. -/
def okSender (_ : ReminderTask) : Option Error := none

/-- The event that `CreateEvent` makes for `user1` at the readings of
`firstClock` with a reminder on 2024-01-16. -/
def remindedEvent : Event := { firstCreated with ReminderTime := some jan16 }

/-- The service whose store holds `remindedEvent` and nothing else. -/
def afterRemindedCreate : EventService :=
  ⟨(MemoryRepository.NewMemoryRepository.Create remindedEvent).1⟩

/-- The reminder task of `remindedEvent`. -/
def remindedTask : ReminderTask :=
  { EventID := "20240115103000-X7hrBL", UserID := "user1", Text := "Event 1", Time := jan16 }

/-- An event of user `a:b` with identifier `c`. -/
def colonEvent : Event :=
  { ID := "c", UserID := "a:b", Date := jan15, Text := "Private", ReminderTime := none,
    CreatedAt := jan15, UpdatedAt := jan15, Archived := false }

/-- The store made by `Create(colonEvent)` on the empty repository. -/
def colonRepo : MemoryRepository :=
  (MemoryRepository.NewMemoryRepository.Create colonEvent).1

/-- A cleanup worker that runs every hour and archives after 24 hours, not
stopped. -/
def sampleCleanup : CleanupWorker :=
  { interval := time.Hour, archiveAfter := 24 * time.Hour, done := false }

/-! ## Notions and concrete values used in the statements about locations -/

/-- The number `bound` of seconds bounds the offsets of the location: at every
instant the offset is at most `bound` seconds east or west of UTC. A location
has finitely many zones, so that it has such a bound. -/
def Location.Bounded (loc : Location) (bound : Int) : Prop :=
  ∀ sec, -bound ≤ (loc.lookup sec).1 ∧ (loc.lookup sec).1 ≤ bound

/-- The offset of the location does not change near the instant `t`: at every
instant at most `2 * bound` seconds before or after `t` the offset is the one
in effect at `t`. -/
def Location.SteadyAround (loc : Location) (bound : Int) (t : Time) : Prop :=
  ∀ sec, t.Unix - 2 * bound ≤ sec → sec ≤ t.Unix + 2 * bound →
    (loc.lookup sec).1 = (loc.lookup t.Unix).1

/-- A location with one transition, at 2017-10-01 04:00:00 UTC (Unix time
1506830400): four hours west of UTC before it and three hours west from it on.
The location America/Asuncion has this transition: its clocks went from
2017-10-01 00:00 to 01:00. -/
def asuncion : Location :=
  ⟨fun sec =>
    if sec < 1506830400 then (-14400, time.alpha, 1506830400)
    else (-10800, 1506830400, time.omega)⟩

/-- The time 2017-10-15 12:00:00 in `asuncion`, 15:00:00 UTC. -/
def oct15 : Time := time.Date 2017 10 15 15 0 0 0

/-- An event of user `user1` dated 2017-10-15 12:00:00 in `asuncion`. -/
def octoberEvent : Event :=
  { ID := "o1", UserID := "user1", Date := oct15, Text := "October",
    ReminderTime := none, CreatedAt := jan15, UpdatedAt := jan15, Archived := false }

/-- The store made by `Create(octoberEvent)` on the empty repository. -/
def octoberRepo : MemoryRepository :=
  (MemoryRepository.NewMemoryRepository.Create octoberEvent).1

/-- The time 2024-02-01 00:30:00 in the fixed zone nine hours east of UTC,
2024-01-31 15:30:00 UTC. -/
def feb1Tokyo : Time := time.Date 2024 1 31 15 30 0 0

/-- An event of user `user1` dated 2024-02-10 00:00:00 in the fixed zone nine
hours east of UTC, 2024-02-09 15:00:00 UTC. -/
def tokyoEvent : Event :=
  { ID := "t1", UserID := "user1", Date := time.Date 2024 2 9 15 0 0 0, Text := "February",
    ReminderTime := none, CreatedAt := jan15, UpdatedAt := jan15, Archived := false }

/-- The store made by `Create(tokyoEvent)` on the empty repository. -/
def tokyoRepo : MemoryRepository :=
  (MemoryRepository.NewMemoryRepository.Create tokyoEvent).1

/-- The time 2017-11-15 12:00:00 in `asuncion`, 15:00:00 UTC. -/
def nov15 : Time := time.Date 2017 11 15 15 0 0 0

/-- An event of user `user1` dated 2017-11-30 23:30:00 in `asuncion`,
2017-12-01 02:30:00 UTC. -/
def novemberEvent : Event :=
  { ID := "n1", UserID := "user1", Date := time.Date 2017 12 1 2 30 0 0, Text := "November",
    ReminderTime := none, CreatedAt := jan15, UpdatedAt := jan15, Archived := false }

/-- The store made by `Create(novemberEvent)` on the empty repository. -/
def novemberRepo : MemoryRepository :=
  (MemoryRepository.NewMemoryRepository.Create novemberEvent).1

/-! ## Notions used in the calendar lemmas -/

/-- The number of days before year `y` of a 400-year cycle that starts on
March 1. -/
def marchDays (y : Int) : Int := 365 * y + y / 4 - y / 100 + y / 400

/-- The day number of day 1 of month `month` of year `year`, as `time.Date`
computes it. -/
def monthStart (year month : Int) : Int :=
  time.daysSinceEpoch (year + (month - 1) / 12) + time.daysBefore ((month - 1) % 12) +
    (if time.isLeap (year + (month - 1) / 12) && decide (2 ≤ (month - 1) % 12) then 1 else 0)

/-- The day number of the first day of the month with index `n`, where month
`m` of year `y` has index `12 * y + m`. -/
def monthIndexStart (n : Int) : Int := monthStart 0 n

/-! ## Auxiliary lemmas -/

namespace MemoryRepository

theorem rangeStep_eq (userID : String) (start end_ : Time) (result : List Event) (kv : Entry) :
    rangeStep userID start end_ result kv =
      if selected userID start end_ kv.2 then result ++ [kv.2] else result := by
  unfold rangeStep selected
  by_cases h1 : (kv.2.UserID == userID && !kv.2.Archived) = true
  · by_cases h2 :
        ((kv.2.Date.Equal start || kv.2.Date.After start) && kv.2.Date.Before end_) = true
    · simp [h1, h2]
    · simp [h1, h2]
  · simp [h1]

theorem foldl_rangeStep (userID : String) (start end_ : Time) (l : List Entry)
    (acc : List Event) :
    l.foldl (rangeStep userID start end_) acc =
      acc ++ (l.filter (fun kv => selected userID start end_ kv.2)).map (fun kv => kv.2) := by
  induction l generalizing acc with
  | nil => simp
  | cons kv l ih =>
    rw [List.foldl_cons, ih, rangeStep_eq]
    by_cases h : selected userID start end_ kv.2 = true
    · simp [h, List.filter_cons]
    · simp [h, List.filter_cons]

theorem selected_iff (userID : String) (start end_ : Time) (ev : Event) :
    selected userID start end_ ev = true ↔
      ev.UserID = userID ∧ ev.Archived = false ∧
        start.nsec ≤ ev.Date.nsec ∧ ev.Date.nsec < end_.nsec := by
  simp only [selected, Time.Equal, Time.After, Time.Before, Bool.and_eq_true, Bool.or_eq_true,
    decide_eq_true_eq, beq_iff_eq, Bool.not_eq_true']
  constructor
  · rintro ⟨⟨h1, h2⟩, h3, h4⟩
    exact ⟨h1, h2, by omega, h4⟩
  · rintro ⟨h1, h2, h3, h4⟩
    exact ⟨⟨h1, h2⟩, by omega, h4⟩

theorem mem_entries_iff_lookup (r : MemoryRepository) (k : String) (ev : Event) :
    (⟨k, ev⟩ : Entry) ∈ r.events.entries ↔ r.events.lookup k = some ev := by
  have h := @AList.mem_lookup_iff String (fun _ => Event) _ k ev r.events
  simpa using h.symm

theorem GetByID_of_lookup_some (r : MemoryRepository) (userID eventID : String) (ev : Event)
    (h : r.events.lookup (key userID eventID) = some ev) :
    r.GetByID userID eventID = (some ev, none) := by
  simp [GetByID, h]

theorem GetByID_of_lookup_none (r : MemoryRepository) (userID eventID : String)
    (h : r.events.lookup (key userID eventID) = none) :
    r.GetByID userID eventID = (none, some Error.ErrEventNotFound) := by
  simp [GetByID, h]

theorem GetByID_some_iff (r : MemoryRepository) (userID eventID : String) (ev : Event) :
    r.GetByID userID eventID = (some ev, none) ↔
      r.events.lookup (key userID eventID) = some ev := by
  unfold GetByID
  cases h : r.events.lookup (key userID eventID) <;> simp

theorem GetByID_found_iff (r : MemoryRepository) (userID eventID : String) :
    (r.GetByID userID eventID).2 = none ↔ key userID eventID ∈ r.events := by
  unfold GetByID
  cases h : r.events.lookup (key userID eventID) with
  | none => simpa using AList.lookup_eq_none.1 h
  | some ev =>
    have : (r.events.lookup (key userID eventID)).isSome = true := by simp [h]
    simpa using AList.lookup_isSome.1 this

theorem GetByID_notFound_iff (r : MemoryRepository) (userID eventID : String) :
    (r.GetByID userID eventID).2 = some Error.ErrEventNotFound ↔
      key userID eventID ∉ r.events := by
  unfold GetByID
  cases h : r.events.lookup (key userID eventID) with
  | none => simpa using AList.lookup_eq_none.1 h
  | some ev =>
    have : (r.events.lookup (key userID eventID)).isSome = true := by simp [h]
    simpa using AList.lookup_isSome.1 this

theorem length_insert_of_mem (s : AList (fun _ : String => Event)) (k : String) (ev : Event)
    (h : k ∈ s) : (s.insert k ev).entries.length = s.entries.length := by
  have hk : k ∈ s.entries.keys := h
  obtain ⟨b, l₁, l₂, _, h₁, h₂⟩ := List.exists_of_kerase hk
  rw [AList.insert_entries, h₂, h₁]
  simp
  omega

theorem GetByID_Create_of_ok (r : MemoryRepository) (e : Event) (h : (r.Create e).2 = none) :
    (r.Create e).1.GetByID e.UserID e.ID = (some e, none) := by
  unfold Create at h ⊢
  by_cases hk : key e.UserID e.ID ∈ r.events
  · simp [hk] at h
  · simp only [hk, if_false]
    exact GetByID_of_lookup_some _ _ _ _ (AList.lookup_insert _)

theorem lookup_ArchiveOldEvents (r : MemoryRepository) (before : Time) (k : String) :
    (r.ArchiveOldEvents before).1.events.lookup k =
      (r.events.lookup k).map (archiveVisit before) := by
  unfold ArchiveOldEvents AList.lookup
  simp only
  generalize r.events.entries = l
  induction l with
  | nil => rfl
  | cons kv l ih =>
    obtain ⟨k', ev⟩ := kv
    by_cases hk : k = k'
    · subst hk
      simp [archiveStep, List.dlookup_cons_eq]
    · have h1 : k ≠ (archiveStep before ⟨k', ev⟩).1 := hk
      rw [List.map_cons, List.dlookup_cons_ne _ _ h1,
        List.dlookup_cons_ne _ (⟨k', ev⟩ : Entry) hk, ih]

theorem archiveVisit_idem (before : Time) (ev : Event) :
    archiveVisit before (archiveVisit before ev) = archiveVisit before ev := by
  by_cases hc : (ev.Date.Before before && !ev.Archived) = true
  · simp [archiveVisit, hc]
  · simp [archiveVisit, hc]

theorem archiveVisit_archived (before : Time) (ev : Event) :
    (archiveVisit before ev).Archived = true ↔
      (ev.Archived = true ∨ ev.Date.nsec < before.nsec) := by
  by_cases hc : (ev.Date.Before before && !ev.Archived) = true
  · simp only [archiveVisit, hc, if_true]
    simp only [Time.Before, Bool.and_eq_true, decide_eq_true_eq] at hc
    simp [hc.1]
  · simp only [archiveVisit, hc, if_false]
    simp only [Time.Before, Bool.and_eq_true, decide_eq_true_eq, Bool.not_eq_true',
      not_and, Bool.not_eq_false] at hc
    constructor
    · exact Or.inl
    · rintro (h1 | h1)
      · exact h1
      · exact hc h1

theorem archiveVisit_frame (before : Time) (ev : Event) :
    { archiveVisit before ev with Archived := ev.Archived } = ev := by
  by_cases hc : (ev.Date.Before before && !ev.Archived) = true
  · simp [archiveVisit, hc]
  · simp [archiveVisit, hc]

end MemoryRepository

theorem charsetAt_isSome (now : Time) (h : 0 ≤ now.UnixNano) : ∃ c, charsetAt now = some c := by
  unfold charsetAt
  have hlen : charset.length = 62 := by decide
  have h0 : 0 ≤ Int.tmod now.UnixNano (charset.length : Int) := by
    rw [hlen]; exact Int.tmod_nonneg _ h
  have h1 : Int.tmod now.UnixNano (charset.length : Int) < 62 := by
    rw [hlen]; exact Int.tmod_lt_of_pos _ (by norm_num)
  simp only [h0, if_true]
  have h2 : (Int.tmod now.UnixNano (charset.length : Int)).toNat < charset.data.length := by
    have : charset.data.length = 62 := by decide
    omega
  exact ⟨_, List.getElem?_eq_getElem h2⟩

theorem randomBytes_isSome (clock : Nat → Time) (n : Nat)
    (h : ∀ i, i < n → 0 ≤ (clock i).UnixNano) : ∃ b, randomBytes clock n = some b := by
  induction n with
  | zero => exact ⟨[], rfl⟩
  | succ n ih =>
    obtain ⟨b, hb⟩ := ih (fun i hi => h i (Nat.lt_succ_of_lt hi))
    obtain ⟨c, hc⟩ := charsetAt_isSome (clock n) (h n (Nat.lt_succ_self n))
    exact ⟨b ++ [c], by simp [randomBytes, hb, hc]⟩

theorem generateID_isSome (clock : Nat → Time) (h : WallClock clock) :
    ∃ id, generateID clock = some id := by
  unfold generateID randomString
  obtain ⟨b, hb⟩ := randomBytes_isSome (fun i => clock (i + 1)) 6
    (fun i hi => h (i + 1) (by omega))
  exact ⟨_, by rw [hb]; rfl⟩

theorem Validate_eq_none_iff (e : Event) :
    e.Validate = none ↔ e.UserID ≠ "" ∧ e.Text ≠ "" ∧ e.Date ≠ Time.zero := by
  have hz : e.Date.IsZero = true ↔ e.Date = Time.zero := by
    cases hd : e.Date with
    | mk n => simp [Time.IsZero, Time.zero]
  unfold Event.Validate
  simp only [beq_iff_eq]
  split_ifs with h1 h2 h3
  · simp [h1]
  · simp [h2]
  · constructor
    · intro h
      cases h
    · rintro ⟨_, _, h⟩
      exact absurd (hz.1 h3) h
  · exact ⟨fun _ => ⟨h1, h2, fun h => h3 (hz.2 h)⟩, fun _ => rfl⟩

theorem Validate_of_user_empty (e : Event) (h : e.UserID = "") :
    e.Validate = some Error.ErrInvalidUserID := by
  unfold Event.Validate
  simp only [beq_iff_eq]
  rw [if_pos h]

theorem Validate_of_text_empty (e : Event) (h1 : e.UserID ≠ "") (h2 : e.Text = "") :
    e.Validate = some Error.ErrInvalidEventText := by
  unfold Event.Validate
  simp only [beq_iff_eq]
  rw [if_neg h1, if_pos h2]

theorem Validate_of_date_zero (e : Event) (h1 : e.UserID ≠ "") (h2 : e.Text ≠ "")
    (h3 : e.Date = Time.zero) : e.Validate = some Error.ErrInvalidDate := by
  unfold Event.Validate
  simp only [beq_iff_eq]
  rw [if_neg h1, if_neg h2, if_pos (by rw [h3]; rfl)]

theorem wallClock_firstClock : WallClock firstClock := by
  unfold WallClock
  decide

theorem wallClock_secondClock : WallClock secondClock := by
  unfold WallClock
  decide

/-! ## The claims -/

open MemoryRepository

/-- C1: for every store state, user, start and end, `GetByDateRange` returns no
error and exactly the stored events of that user that are not archived and whose
date lies in the half-open range from start to end: an event is in the result
if and only if it is stored and satisfies the three conditions; the result lists
the records of a sublist of the map entries, so that every entry is returned at
most once; and when every record is stored under the key built from its own
user and event identifiers, no event appears twice in the result. -/
theorem GetByDateRange_exact (r : MemoryRepository) (userID : String) (start end_ : Time) :
    (r.GetByDateRange userID start end_).2 = none ∧
    (∀ ev : Event, ev ∈ (r.GetByDateRange userID start end_).1 ↔
      ((∃ k, r.events.lookup k = some ev) ∧ ev.UserID = userID ∧ ev.Archived = false ∧
        start.nsec ≤ ev.Date.nsec ∧ ev.Date.nsec < end_.nsec)) ∧
    (∃ es : List Entry, List.Sublist es r.events.entries ∧
      (r.GetByDateRange userID start end_).1 = es.map (fun kv => kv.2)) ∧
    ((∀ k ev, r.events.lookup k = some ev → k = key ev.UserID ev.ID) →
      (r.GetByDateRange userID start end_).1.Nodup) := by
  have hres : (r.GetByDateRange userID start end_).1 =
      (r.events.entries.filter (fun kv => selected userID start end_ kv.2)).map
        (fun kv => kv.2) := by
    simp [GetByDateRange, foldl_rangeStep]
  refine ⟨rfl, ?_, ?_, ?_⟩
  · intro ev
    rw [hres]
    simp only [List.mem_map, List.mem_filter]
    constructor
    · rintro ⟨⟨k, ev'⟩, ⟨hmem, hsel⟩, rfl⟩
      exact ⟨⟨k, (mem_entries_iff_lookup r k ev').1 hmem⟩,
        (selected_iff userID start end_ ev').1 hsel⟩
    · rintro ⟨⟨k, hk⟩, hsel⟩
      exact ⟨⟨k, ev⟩, ⟨(mem_entries_iff_lookup r k ev).2 hk,
        (selected_iff userID start end_ ev).2 hsel⟩, rfl⟩
  · exact ⟨_, List.filter_sublist _, hres⟩
  · intro hkeyed
    rw [hres]
    have hnd : (r.events.entries.filter (fun kv => selected userID start end_ kv.2)).Nodup :=
      (r.events.nodupKeys.nodup).filter _
    refine (List.nodup_map_iff_inj_on hnd).2 ?_
    rintro ⟨k1, ev1⟩ h1 ⟨k2, ev2⟩ h2 heq
    simp only at heq
    subst heq
    have e1 := hkeyed k1 ev1 ((mem_entries_iff_lookup r k1 ev1).1 (List.mem_of_mem_filter h1))
    have e2 := hkeyed k2 ev1 ((mem_entries_iff_lookup r k2 ev1).1 (List.mem_of_mem_filter h2))
    rw [e1, e2]

/-- C2: for every store state and every event, if `Create` succeeds then the
`GetByID` that follows with the user and event identifiers of the event succeeds
and returns a record equal to the event in every field. -/
theorem Create_then_GetByID (r : MemoryRepository) (e : Event) (h : (r.Create e).2 = none) :
    (r.Create e).1.GetByID e.UserID e.ID = (some e, none) :=
  GetByID_Create_of_ok r e h

/-- Witness of C2: `Create(sampleEvent)` on the empty repository. -/
theorem Create_then_GetByID_witness :
    (NewMemoryRepository.Create sampleEvent).2 = none ∧
      (NewMemoryRepository.Create sampleEvent).1.GetByID sampleEvent.UserID sampleEvent.ID =
        (some sampleEvent, none) :=
  ⟨by decide, Create_then_GetByID NewMemoryRepository sampleEvent (by decide)⟩

/-- C3: for every store state and every event, if a record is already stored
under the user and event identifiers of the event, then `Create` returns the
error `event already exists` and the store is exactly as it was: the record
stored before is still returned by `GetByID` and no record is added. -/
theorem Create_occupied (r : MemoryRepository) (e old : Event)
    (h : r.GetByID e.UserID e.ID = (some old, none)) :
    r.Create e = (r, some (Error.errorsNew "event already exists")) ∧
      (r.Create e).1.GetByID e.UserID e.ID = (some old, none) ∧
      (r.Create e).1.events.entries.length = r.events.entries.length := by
  have hk : key e.UserID e.ID ∈ r.events :=
    (GetByID_found_iff r e.UserID e.ID).1 (by rw [h])
  have hc : r.Create e = (r, some (Error.errorsNew "event already exists")) := by
    simp [Create, hk]
  rw [hc]
  exact ⟨rfl, h, rfl⟩

/-- Witness of C3: `Create` of the archived copy of `sampleEvent` on the store
that holds `sampleEvent`. -/
theorem Create_occupied_witness :
    sampleRepo.GetByID archivedEvent.UserID archivedEvent.ID = (some sampleEvent, none) ∧
      sampleRepo.Create archivedEvent =
        (sampleRepo, some (Error.errorsNew "event already exists")) :=
  ⟨by decide, (Create_occupied sampleRepo archivedEvent sampleEvent (by decide)).1⟩

/-- C4: for every store state and every event: if no record is stored under the
user and event identifiers of the event, `Update` returns `ErrEventNotFound` and
leaves the store unchanged; otherwise it returns no error, the `GetByID` that
follows returns the event, and the number of stored records is unchanged. -/
theorem Update_spec (r : MemoryRepository) (e : Event) :
    ((r.GetByID e.UserID e.ID).2 = some Error.ErrEventNotFound →
      r.Update e = (r, some Error.ErrEventNotFound)) ∧
    ((r.GetByID e.UserID e.ID).2 = none →
      (r.Update e).2 = none ∧
      (r.Update e).1.GetByID e.UserID e.ID = (some e, none) ∧
      (r.Update e).1.events.entries.length = r.events.entries.length) := by
  constructor
  · intro h
    have hk := (GetByID_notFound_iff r e.UserID e.ID).1 h
    simp [Update, hk]
  · intro h
    have hk := (GetByID_found_iff r e.UserID e.ID).1 h
    have hu : r.Update e = (⟨r.events.insert (key e.UserID e.ID) e⟩, none) := by
      simp [Update, hk]
    rw [hu]
    exact ⟨rfl, GetByID_of_lookup_some _ _ _ _ (AList.lookup_insert _),
      length_insert_of_mem _ _ _ hk⟩

/-- Witness of C4: `Update` of an event that is not stored is rejected on the
empty repository, and `Update` of the stored event replaces the record. -/
theorem Update_spec_witness :
    NewMemoryRepository.Update sampleEvent =
      (NewMemoryRepository, some Error.ErrEventNotFound) ∧
    (sampleRepo.Update archivedEvent).1.GetByID "user1" "e1" = (some archivedEvent, none) :=
  ⟨(Update_spec NewMemoryRepository sampleEvent).1 (by decide),
    ((Update_spec sampleRepo archivedEvent).2 (by decide)).2.1⟩

/-- C5: for every store state, user and event identifier: `Delete` of a pair
that is not stored returns `ErrEventNotFound` and leaves the store unchanged;
`Delete` of a pair that is stored returns no error and the `GetByID` that
follows returns `ErrEventNotFound`. The same holds for
`EventService.DeleteEvent`. -/
theorem Delete_spec (r : MemoryRepository) (userID eventID : String) :
    ((r.GetByID userID eventID).2 = some Error.ErrEventNotFound →
      r.Delete userID eventID = (r, some Error.ErrEventNotFound) ∧
      EventService.DeleteEvent ⟨r⟩ userID eventID = (⟨r⟩, some Error.ErrEventNotFound)) ∧
    ((r.GetByID userID eventID).2 = none →
      (r.Delete userID eventID).2 = none ∧
      (r.Delete userID eventID).1.GetByID userID eventID =
        (none, some Error.ErrEventNotFound) ∧
      (EventService.DeleteEvent ⟨r⟩ userID eventID).2 = none ∧
      (EventService.DeleteEvent ⟨r⟩ userID eventID).1.repo.GetByID userID eventID =
        (none, some Error.ErrEventNotFound)) := by
  constructor
  · intro h
    have hk := (GetByID_notFound_iff r userID eventID).1 h
    have hg : r.GetByID userID eventID = (none, some Error.ErrEventNotFound) :=
      GetByID_of_lookup_none _ _ _ (AList.lookup_eq_none.2 hk)
    constructor
    · simp [Delete, hk]
    · simp [EventService.DeleteEvent, hg]
  · intro h
    have hk := (GetByID_found_iff r userID eventID).1 h
    have hd : r.Delete userID eventID = (⟨r.events.erase (key userID eventID)⟩, none) := by
      simp [Delete, hk]
    have hl : (r.Delete userID eventID).1.GetByID userID eventID =
        (none, some Error.ErrEventNotFound) := by
      rw [hd]
      exact GetByID_of_lookup_none _ _ _ (AList.lookup_erase _ _)
    have hs : EventService.DeleteEvent ⟨r⟩ userID eventID =
        (⟨(r.Delete userID eventID).1⟩, (r.Delete userID eventID).2) := by
      unfold EventService.DeleteEvent
      generalize hg : r.GetByID userID eventID = g at h
      obtain ⟨ev, err⟩ := g
      simp only at h
      subst h
      rfl
    refine ⟨by rw [hd], hl, ?_, ?_⟩
    · rw [hs, hd]
    · rw [hs]; exact hl

/-- Witness of C5: `Delete` on the empty repository and on the store that
holds `sampleEvent`. -/
theorem Delete_spec_witness :
    NewMemoryRepository.Delete "user1" "e1" =
      (NewMemoryRepository, some Error.ErrEventNotFound) ∧
    (sampleRepo.Delete "user1" "e1").1.GetByID "user1" "e1" =
      (none, some Error.ErrEventNotFound) :=
  ⟨((Delete_spec NewMemoryRepository "user1" "e1").1 (by decide)).1,
    ((Delete_spec sampleRepo "user1" "e1").2 (by decide)).2.1⟩

/-- C6: for every store state and cutoff, `ArchiveOldEvents` returns no error;
the stored keys are the same afterwards; and the record stored under a key
afterwards is archived if and only if the record stored there before was
archived or had a date strictly before the cutoff, with every field other than
`Archived` unchanged. No record is stored afterwards under a key that held
none before. -/
theorem ArchiveOldEvents_spec (r : MemoryRepository) (cutoff : Time) :
    (r.ArchiveOldEvents cutoff).2 = none ∧
    (r.ArchiveOldEvents cutoff).1.events.keys = r.events.keys ∧
    (∀ (k : String) (ev : Event), r.events.lookup k = some ev →
      ∃ ev', (r.ArchiveOldEvents cutoff).1.events.lookup k = some ev' ∧
        (ev'.Archived = true ↔ (ev.Archived = true ∨ ev.Date.nsec < cutoff.nsec)) ∧
        { ev' with Archived := ev.Archived } = ev) ∧
    (∀ (k : String) (ev' : Event), (r.ArchiveOldEvents cutoff).1.events.lookup k = some ev' →
      ∃ ev, r.events.lookup k = some ev) := by
  refine ⟨rfl, keys_map_archiveStep cutoff r.events.entries, ?_, ?_⟩
  · intro k ev h
    exact ⟨archiveVisit cutoff ev, by rw [lookup_ArchiveOldEvents, h]; rfl,
      archiveVisit_archived cutoff ev, archiveVisit_frame cutoff ev⟩
  · intro k ev' h
    rw [lookup_ArchiveOldEvents] at h
    cases hl : r.events.lookup k with
    | none => simp [hl] at h
    | some ev => exact ⟨ev, rfl⟩

/-- C7: `ArchiveOldEvents` is idempotent: for every store state and cutoff,
applying it a second time with the same cutoff gives the same store state (and
the same nil error) as applying it once. -/
theorem ArchiveOldEvents_idempotent (r : MemoryRepository) (c : Time) :
    (r.ArchiveOldEvents c).1.ArchiveOldEvents c = r.ArchiveOldEvents c := by
  unfold ArchiveOldEvents
  simp only [Prod.mk.injEq, and_true, MemoryRepository.mk.injEq]
  apply AList.ext
  simp only [List.map_map]
  apply List.map_congr_left
  intro kv _
  simp [archiveStep, archiveVisit_idem]

/-- Counterexample to C8 as stated: the store holds the archived event
`archivedEvent` under `user1`, `e1`; `Update` with the same event carrying
`Archived = false` succeeds, and the record stored under `user1`, `e1`
afterwards is not archived. -/
theorem Update_unarchives :
    archivedRepo.GetByID "user1" "e1" = (some archivedEvent, none) ∧
    archivedEvent.Archived = true ∧
    (archivedRepo.Update sampleEvent).2 = none ∧
    (archivedRepo.Update sampleEvent).1.GetByID "user1" "e1" = (some sampleEvent, none) ∧
    sampleEvent.Archived = false := by
  decide

/-- C8, amended: an event that is stored and archived before `Create`, `Delete`
or `ArchiveOldEvents` with any arguments is, if still stored under the same
user and event identifiers afterwards, still archived; the same holds for
`Update` of an event that is archived itself or whose key is not the key of the
archived record. -/
theorem archived_stays_archived (r : MemoryRepository) (userID eventID : String) (old : Event)
    (hold : r.GetByID userID eventID = (some old, none)) (harch : old.Archived = true) :
    (∀ e new, (r.Create e).1.GetByID userID eventID = (some new, none) →
      new.Archived = true) ∧
    (∀ u i new, (r.Delete u i).1.GetByID userID eventID = (some new, none) →
      new.Archived = true) ∧
    (∀ c new, (r.ArchiveOldEvents c).1.GetByID userID eventID = (some new, none) →
      new.Archived = true) ∧
    (∀ e new, (key e.UserID e.ID = key userID eventID → e.Archived = true) →
      (r.Update e).1.GetByID userID eventID = (some new, none) → new.Archived = true) := by
  have hl : r.events.lookup (key userID eventID) = some old :=
    (GetByID_some_iff r userID eventID old).1 hold
  have hmem : key userID eventID ∈ r.events :=
    (GetByID_found_iff r userID eventID).1 (by rw [hold])
  refine ⟨?_, ?_, ?_, ?_⟩
  · intro e new h
    rw [GetByID_some_iff] at h
    unfold Create at h
    by_cases hk : key e.UserID e.ID ∈ r.events
    · simp only [hk, if_true] at h
      rw [hl] at h
      cases h
      exact harch
    · simp only [hk, if_false] at h
      have hne : key userID eventID ≠ key e.UserID e.ID := fun heq => hk (heq ▸ hmem)
      rw [AList.lookup_insert_ne hne, hl] at h
      cases h
      exact harch
  · intro u i new h
    rw [GetByID_some_iff] at h
    unfold Delete at h
    by_cases hk : key u i ∈ r.events
    · simp only [hk, not_true_eq_false, if_false] at h
      by_cases heq : key userID eventID = key u i
      · rw [heq, AList.lookup_erase] at h
        cases h
      · rw [AList.lookup_erase_ne heq, hl] at h
        cases h
        exact harch
    · simp only [hk, not_false_eq_true, if_true] at h
      rw [hl] at h
      cases h
      exact harch
  · intro c new h
    rw [GetByID_some_iff, lookup_ArchiveOldEvents, hl] at h
    cases h
    exact (archiveVisit_archived c old).2 (Or.inl harch)
  · intro e new hcond h
    rw [GetByID_some_iff] at h
    unfold Update at h
    by_cases hk : key e.UserID e.ID ∈ r.events
    · simp only [hk, not_true_eq_false, if_false] at h
      by_cases heq : key e.UserID e.ID = key userID eventID
      · rw [← heq, AList.lookup_insert] at h
        cases h
        exact hcond heq
      · rw [AList.lookup_insert_ne (Ne.symm heq), hl] at h
        cases h
        exact harch
    · simp only [hk, not_false_eq_true, if_true] at h
      rw [hl] at h
      cases h
      exact harch

/-- Witness of the amended C8: the store that holds `archivedEvent`, swept by
`ArchiveOldEvents` with the zero time as cutoff, and updated with
`archivedEvent` itself. -/
theorem archived_stays_archived_witness :
    archivedRepo.GetByID "user1" "e1" = (some archivedEvent, none) ∧
    archivedEvent.Archived = true ∧
    (∀ new, (archivedRepo.ArchiveOldEvents Time.zero).1.GetByID "user1" "e1" =
      (some new, none) → new.Archived = true) ∧
    (∀ new, (archivedRepo.Update archivedEvent).1.GetByID "user1" "e1" =
      (some new, none) → new.Archived = true) :=
  ⟨by decide, by decide,
    fun new => (archived_stays_archived archivedRepo "user1" "e1" archivedEvent
      (by decide) (by decide)).2.2.1 Time.zero new,
    fun new => (archived_stays_archived archivedRepo "user1" "e1" archivedEvent
      (by decide) (by decide)).2.2.2 archivedEvent new (fun _ => rfl)⟩

/-- C9: when the clock readings are those of a wall clock, `CreateEvent` returns
`ErrInvalidUserID` when the user identifier is empty; otherwise
`ErrInvalidEventText` when the text is empty; otherwise `ErrInvalidDate` when the
date is the zero time; in each case no event is returned and the store is
unchanged. `Validate` returns nil exactly when the user identifier and the text
are not empty and the date is not the zero time. -/
theorem CreateEvent_rejects_invalid (s : EventService) (clock : Nat → Time)
    (userID text : String) (date : Time) (reminderTime : Option Time)
    (hclock : WallClock clock) :
    (userID = "" →
      s.CreateEvent clock userID text date reminderTime =
        some (s, none, some Error.ErrInvalidUserID)) ∧
    (userID ≠ "" → text = "" →
      s.CreateEvent clock userID text date reminderTime =
        some (s, none, some Error.ErrInvalidEventText)) ∧
    (userID ≠ "" → text ≠ "" → date = Time.zero →
      s.CreateEvent clock userID text date reminderTime =
        some (s, none, some Error.ErrInvalidDate)) ∧
    (∀ e : Event, e.Validate = none ↔ e.UserID ≠ "" ∧ e.Text ≠ "" ∧ e.Date ≠ Time.zero) := by
  obtain ⟨id, hid⟩ := generateID_isSome clock hclock
  refine ⟨?_, ?_, ?_, Validate_eq_none_iff⟩
  · intro h1
    unfold EventService.CreateEvent
    rw [hid]
    simp only [Option.map_some']
    rw [Validate_of_user_empty _ h1]
  · intro h1 h2
    unfold EventService.CreateEvent
    rw [hid]
    simp only [Option.map_some']
    rw [Validate_of_text_empty _ h1 h2]
  · intro h1 h2 h3
    unfold EventService.CreateEvent
    rw [hid]
    simp only [Option.map_some']
    rw [Validate_of_date_zero _ h1 h2 h3]

/-- Witness of C9: the three rejected calls of the test
`TestEventService_CreateEvent_InvalidData`, on the store that holds
`sampleEvent`. -/
theorem CreateEvent_rejects_invalid_witness :
    WallClock firstClock ∧
    EventService.CreateEvent ⟨sampleRepo⟩ firstClock "" "Test" jan15 none =
      some (⟨sampleRepo⟩, none, some Error.ErrInvalidUserID) ∧
    EventService.CreateEvent ⟨sampleRepo⟩ firstClock "user1" "" jan15 none =
      some (⟨sampleRepo⟩, none, some Error.ErrInvalidEventText) ∧
    EventService.CreateEvent ⟨sampleRepo⟩ firstClock "user1" "Test" Time.zero none =
      some (⟨sampleRepo⟩, none, some Error.ErrInvalidDate) :=
  ⟨wallClock_firstClock,
    (CreateEvent_rejects_invalid ⟨sampleRepo⟩ firstClock "" "Test" jan15 none
      wallClock_firstClock).1 rfl,
    (CreateEvent_rejects_invalid ⟨sampleRepo⟩ firstClock "user1" "" jan15 none
      wallClock_firstClock).2.1 (by decide) rfl,
    (CreateEvent_rejects_invalid ⟨sampleRepo⟩ firstClock "user1" "Test" Time.zero none
      wallClock_firstClock).2.2.1 (by decide) (by decide) rfl⟩

/-- C10, the code at the failing input: the two calls of `CreateEvent` for
`user1` that the test `TestEventService_GetEventsForDay` makes, `Event 1` and
`Event 2` on 2024-01-15, 620 ns apart on a clock that advances by 10 ns per
reading. The user identifier and the text are not empty and the date is not
zero in both calls, and the test requires both calls to return no error. Both
calls generate the identifier `20240115103000-X7hrBL`; the first call
succeeds, and the second returns the error `event already exists`, returns no
event and stores nothing. -/
theorem CreateEvent_generated_id_collision :
    generateID firstClock = some "20240115103000-X7hrBL" ∧
    generateID secondClock = some "20240115103000-X7hrBL" ∧
    (∀ i, i < 9 → ∀ j, j < 9 → (firstClock i).nsec < (secondClock j).nsec) ∧
    EventService.CreateEvent ⟨NewMemoryRepository⟩ firstClock "user1" "Event 1" jan15 none =
      some (afterFirstCreate, some firstCreated, none) ∧
    afterFirstCreate.CreateEvent secondClock "user1" "Event 2" jan15 none =
      some (afterFirstCreate, none, some (Error.errorsNew "event already exists")) :=
  ⟨by decide, by decide, by decide, rfl, rfl⟩

/-- The two outcomes of `CreateEvent` on valid input: for every store state,
every non-empty user identifier, non-empty text and non-zero date, with or
without a reminder time, and every wall-clock reading, `generateID` yields an
identifier that depends on the clock only; when no record is stored
under the user and that identifier, `CreateEvent` returns no error, and the
returned event has that identifier and exactly that user, text, date and
reminder time, is not archived, and is the record stored under the user and
the returned identifier; when a record is stored there, `CreateEvent` returns
the error `event already exists`, returns no event and leaves the store
unchanged. -/
theorem CreateEvent_valid (s : EventService) (clock : Nat → Time)
    (userID text : String) (date : Time) (reminderTime : Option Time)
    (hclock : WallClock clock) (huser : userID ≠ "") (htext : text ≠ "")
    (hdate : date ≠ Time.zero) :
    ∃ id, generateID clock = some id ∧
      ((s.repo.GetByID userID id).2 = some Error.ErrEventNotFound →
        ∃ (s' : EventService) (ev : Event),
          s.CreateEvent clock userID text date reminderTime = some (s', some ev, none) ∧
          ev.ID = id ∧ ev.UserID = userID ∧ ev.Text = text ∧ ev.Date = date ∧
          ev.ReminderTime = reminderTime ∧ ev.Archived = false ∧
          s'.repo.GetByID userID ev.ID = (some ev, none)) ∧
      ((s.repo.GetByID userID id).2 = none →
        s.CreateEvent clock userID text date reminderTime =
          some (s, none, some (Error.errorsNew "event already exists"))) := by
  obtain ⟨id, hid⟩ := generateID_isSome clock hclock
  have hv : ∀ ev : Event, ev.UserID = userID → ev.Text = text → ev.Date = date →
      ev.Validate = none := by
    intro ev h1 h2 h3
    rw [Validate_eq_none_iff, h1, h2, h3]
    exact ⟨huser, htext, hdate⟩
  refine ⟨id, hid, ?_, ?_⟩
  · intro hnf
    have hk := (GetByID_notFound_iff s.repo userID id).1 hnf
    have hc : s.repo.Create
        { ID := id, UserID := userID, Text := text, Date := date, ReminderTime := reminderTime,
          CreatedAt := clock 7, UpdatedAt := clock 8, Archived := false } =
        (⟨s.repo.events.insert (key userID id)
          { ID := id, UserID := userID, Text := text, Date := date,
            ReminderTime := reminderTime,
            CreatedAt := clock 7, UpdatedAt := clock 8, Archived := false }⟩, none) := by
      simp [Create, hk]
    refine ⟨⟨⟨s.repo.events.insert (key userID id)
          { ID := id, UserID := userID, Text := text, Date := date,
            ReminderTime := reminderTime,
            CreatedAt := clock 7, UpdatedAt := clock 8, Archived := false }⟩⟩,
        { ID := id, UserID := userID, Text := text, Date := date,
          ReminderTime := reminderTime,
          CreatedAt := clock 7, UpdatedAt := clock 8, Archived := false },
        ?_, rfl, rfl, rfl, rfl, rfl, rfl, ?_⟩
    · unfold EventService.CreateEvent
      rw [hid]
      simp only [Option.map_some']
      rw [hv _ rfl rfl rfl]
      simp only [hc]
    · exact GetByID_of_lookup_some _ _ _ _ (AList.lookup_insert _)
  · intro hf
    have hk := (GetByID_found_iff s.repo userID id).1 hf
    have hc : ∀ ev : Event, ev.UserID = userID → ev.ID = id →
        s.repo.Create ev = (s.repo, some (Error.errorsNew "event already exists")) := by
      intro ev h1 h2
      unfold Create
      rw [h1, h2]
      simp only [hk, if_true]
    have hc2 := hc
      { ID := id, UserID := userID, Text := text, Date := date, ReminderTime := reminderTime,
        CreatedAt := clock 7, UpdatedAt := clock 8, Archived := false } rfl rfl
    unfold EventService.CreateEvent
    rw [hid]
    simp only [Option.map_some']
    rw [hv _ rfl rfl rfl]
    simp only
    rw [hc2]

/-- The two outcomes of `CreateEvent` at the first call of the test
`TestEventService_GetEventsForDay` on the empty repository. -/
theorem CreateEvent_valid_witness :
    WallClock firstClock ∧
    ∃ id, generateID firstClock = some id ∧
      ((NewMemoryRepository.GetByID "user1" id).2 = some Error.ErrEventNotFound →
        ∃ (s' : EventService) (ev : Event),
          EventService.CreateEvent ⟨NewMemoryRepository⟩ firstClock "user1" "Event 1" jan15
            none = some (s', some ev, none) ∧
          ev.ID = id ∧ ev.UserID = "user1" ∧ ev.Text = "Event 1" ∧ ev.Date = jan15 ∧
          ev.ReminderTime = none ∧ ev.Archived = false ∧
          s'.repo.GetByID "user1" ev.ID = (some ev, none)) ∧
      ((NewMemoryRepository.GetByID "user1" id).2 = none →
        EventService.CreateEvent ⟨NewMemoryRepository⟩ firstClock "user1" "Event 1" jan15
          none = some (⟨NewMemoryRepository⟩, none,
            some (Error.errorsNew "event already exists"))) :=
  ⟨wallClock_firstClock,
    CreateEvent_valid ⟨NewMemoryRepository⟩ firstClock "user1" "Event 1" jan15 none
      wallClock_firstClock (by decide) (by decide) (by decide)⟩

/-! ## Calendar lemmas -/

set_option maxHeartbeats 4000000 in
theorem yearOfEra_bounds (N b : Int) (h0 : 0 ≤ N) (h1 : N < 146097)
    (hb : b = (N - N / 1460 + N / 36524 - N / 146096) / 365) :
    0 ≤ b ∧ b ≤ 399 ∧ marchDays b ≤ N ∧ N < marchDays (b + 1) := by
  have hb0 : 0 ≤ b := by omega
  have hb1 : b ≤ 399 := by omega
  unfold marchDays
  interval_cases b <;> omega

theorem time_Date_eq (year month day hour min sec nsec : Int) :
    time.Date year month day hour min sec nsec =
      ⟨(monthStart year month + (day - 1)) * Time.nsecPerDay +
        (hour * 3600 + min * 60 + sec) * 1000000000 + nsec⟩ := rfl

theorem isLeap_iff (y : Int) :
    time.isLeap y = true ↔ y % 4 = 0 ∧ (y % 100 ≠ 0 ∨ y % 400 = 0) := by
  simp [time.isLeap]

theorem daysSinceEpoch_eq (year : Int) : time.daysSinceEpoch year = marchDays (year - 1) := by
  unfold time.daysSinceEpoch marchDays
  simp only
  omega

theorem marchDays_shift (year era : Int) :
    marchDays (year + era * 400) = marchDays year + 146097 * era := by
  unfold marchDays
  omega

theorem isLeap_shift (year era : Int) :
    time.isLeap (year + era * 400) = time.isLeap year := by
  rw [Bool.eq_iff_iff, isLeap_iff, isLeap_iff]
  omega

theorem marchDays_step (n : Int) :
    marchDays n = marchDays (n - 1) + 365 + (if time.isLeap n = true then 1 else 0) := by
  unfold marchDays
  by_cases h : time.isLeap n = true
  · rw [if_pos h]
    rw [isLeap_iff] at h
    omega
  · rw [if_neg h]
    rw [isLeap_iff] at h
    omega

theorem monthStart_shift (year month era : Int) :
    monthStart (year + era * 400) month = monthStart year month + 146097 * era := by
  unfold monthStart
  have h : year + era * 400 + (month - 1) / 12 = year + (month - 1) / 12 + era * 400 := by ring
  have h2 : year + (month - 1) / 12 + era * 400 - 1 = year + (month - 1) / 12 - 1 + era * 400 := by
    ring
  rw [h, daysSinceEpoch_eq, daysSinceEpoch_eq, isLeap_shift, h2, marchDays_shift]
  ring

set_option maxHeartbeats 4000000 in
theorem civil_core (z era doe yoe doy mp d m y : Int)
    (hera : era = (z + 306) / 146097) (hdoe : doe = (z + 306) % 146097)
    (hyoe : yoe = (doe - doe / 1460 + doe / 36524 - doe / 146096) / 365)
    (hdoy : doy = doe - (365 * yoe + yoe / 4 - yoe / 100))
    (hmp : mp = (5 * doy + 2) / 153)
    (hd : d = doy - (153 * mp + 2) / 5 + 1)
    (hm : m = if mp < 10 then mp + 3 else mp - 9)
    (hy : y = yoe + era * 400 + (if m ≤ 2 then 1 else 0)) :
    1 ≤ m ∧ m ≤ 12 ∧ 1 ≤ d ∧ monthStart y m + (d - 1) = z ∧ z < monthStart y (m + 1) := by
  have h0 : 0 ≤ doe := by omega
  have h1 : doe < 146097 := by omega
  obtain ⟨hy0, hy1, hD0, hD1⟩ := yearOfEra_bounds doe yoe h0 h1 hyoe
  have hM : marchDays yoe = 365 * yoe + yoe / 4 - yoe / 100 := by
    unfold marchDays
    omega
  rw [← hM] at hdoy
  have hmp0 : 0 ≤ mp := by
    have := marchDays_step (yoe + 1)
    omega
  have hmp1 : mp ≤ 11 := by
    have := marchDays_step (yoe + 1)
    simp only [add_sub_cancel_right] at this
    split_ifs at this <;> omega
  have hz : z = 146097 * era + doe - 306 := by omega
  have hy2 : y = (yoe + (if m ≤ 2 then 1 else 0)) + era * 400 := by rw [hy]; ring
  rw [hy2, monthStart_shift, monthStart_shift, hz]
  clear hyoe hera hdoe hz hy2 hy hM
  have s0 := marchDays_step yoe
  have s1 := marchDays_step (yoe + 1)
  simp only [add_sub_cancel_right] at s1
  simp only [monthStart, daysSinceEpoch_eq]
  interval_cases mp <;> norm_num at hm <;> subst hm <;>
    norm_num [time.daysBefore] <;> (try split_ifs at *) <;> omega

theorem civil_spec (t : Time) :
    1 ≤ t.Month ∧ t.Month ≤ 12 ∧ 1 ≤ t.Day ∧
      monthStart t.Year t.Month + (t.Day - 1) = t.dayNumber ∧
      t.dayNumber < monthStart t.Year (t.Month + 1) :=
  civil_core t.dayNumber _ _ _ _ _ _ _ _ rfl rfl rfl rfl rfl rfl rfl rfl

theorem monthStart_eq_index (y m : Int) : monthStart y m = monthIndexStart (12 * y + m) := by
  unfold monthIndexStart monthStart
  have h1 : (12 * y + m - 1) / 12 = y + (m - 1) / 12 := by omega
  have h2 : (12 * y + m - 1) % 12 = (m - 1) % 12 := by omega
  rw [h1, h2, zero_add]

theorem monthIndexStart_lt_succ (n : Int) : monthIndexStart n < monthIndexStart (n + 1) := by
  unfold monthIndexStart monthStart
  obtain ⟨q, r, hq, hr0, hr1⟩ : ∃ q r : Int, n - 1 = 12 * q + r ∧ 0 ≤ r ∧ r ≤ 11 :=
    ⟨(n - 1) / 12, (n - 1) % 12, by omega, by omega, by omega⟩
  have e1 : (n - 1) / 12 = q := by omega
  have e2 : (n - 1) % 12 = r := by omega
  have e3 : (n + 1 - 1) / 12 = if r = 11 then q + 1 else q := by split_ifs <;> omega
  have e4 : (n + 1 - 1) % 12 = if r = 11 then 0 else r + 1 := by split_ifs <;> omega
  rw [e1, e2, e3, e4]
  simp only [daysSinceEpoch_eq, zero_add]
  have s := marchDays_step q
  interval_cases r <;> norm_num [time.daysBefore] <;> (try split_ifs at *) <;> omega

theorem monthIndexStart_strictMono : StrictMono monthIndexStart :=
  strictMono_int_of_lt_succ monthIndexStart_lt_succ

theorem month_of_day (t : Time) (y m : Int) (hm0 : 1 ≤ m) (hm1 : m ≤ 12) :
    (monthStart y m ≤ t.dayNumber ∧ t.dayNumber < monthStart y (m + 1)) ↔
      (t.Year = y ∧ t.Month = m) := by
  obtain ⟨c0, c1, c2, c3, c4⟩ := civil_spec t
  constructor
  · rintro ⟨h1, h2⟩
    rw [monthStart_eq_index] at h1 c3 c4
    rw [monthStart_eq_index] at h2
    have a1 : monthIndexStart (12 * t.Year + t.Month) ≤ t.dayNumber := by omega
    have k1 : 12 * y + m < 12 * t.Year + (t.Month + 1) :=
      monthIndexStart_strictMono.lt_iff_lt.1 (lt_of_le_of_lt h1 c4)
    have k2 : 12 * t.Year + t.Month < 12 * y + (m + 1) :=
      monthIndexStart_strictMono.lt_iff_lt.1 (lt_of_le_of_lt a1 h2)
    constructor <;> omega
  · rintro ⟨rfl, rfl⟩
    constructor <;> omega

theorem nsec_dayNumber_bounds (t : Time) :
    t.dayNumber * Time.nsecPerDay ≤ t.nsec ∧
      t.nsec < t.dayNumber * Time.nsecPerDay + 24 * time.Hour := by
  unfold Time.dayNumber Time.nsecPerDay time.Hour
  show (t.nsec / (86400 * 1000000000)) * (86400 * 1000000000) ≤ t.nsec ∧
    t.nsec < (t.nsec / (86400 * 1000000000)) * (86400 * 1000000000) + 24 * (3600 * 1000000000)
  omega

theorem dayNumber_midnight (z : Int) : (Time.mk (z * Time.nsecPerDay)).dayNumber = z := by
  unfold Time.dayNumber Time.nsecPerDay
  show (z * (86400 * 1000000000)) / (86400 * 1000000000) = z
  omega

theorem secondOfDay_midnight (z : Int) : (Time.mk (z * Time.nsecPerDay)).secondOfDay = 0 := by
  unfold Time.secondOfDay Time.nsecPerDay
  show ((z * (86400 * 1000000000)) % (86400 * 1000000000)) / 1000000000 = 0
  omega

theorem nanosecond_midnight (z : Int) : (Time.mk (z * Time.nsecPerDay)).Nanosecond = 0 := by
  unfold Time.Nanosecond Time.nsecPerDay
  show (z * (86400 * 1000000000)) % 1000000000 = 0
  omega

theorem clock_midnight (z : Int) :
    (Time.mk (z * Time.nsecPerDay)).Hour = 0 ∧ (Time.mk (z * Time.nsecPerDay)).Minute = 0 ∧
      (Time.mk (z * Time.nsecPerDay)).Second = 0 := by
  unfold Time.Hour Time.Minute Time.Second
  rw [secondOfDay_midnight]
  exact ⟨rfl, rfl, rfl⟩

theorem time_Date_midnight (year month day : Int) :
    time.Date year month day 0 0 0 0 =
      ⟨(monthStart year month + (day - 1)) * Time.nsecPerDay⟩ := by
  rw [time_Date_eq]
  simp

theorem time_Date_of_day (t : Time) :
    time.Date t.Year t.Month t.Day 0 0 0 0 = ⟨t.dayNumber * Time.nsecPerDay⟩ := by
  rw [time_Date_midnight, (civil_spec t).2.2.2.1]

theorem midnight_fields (t : Time) :
    (Time.mk (t.dayNumber * Time.nsecPerDay)).Year = t.Year ∧
      (Time.mk (t.dayNumber * Time.nsecPerDay)).Month = t.Month ∧
      (Time.mk (t.dayNumber * Time.nsecPerDay)).Day = t.Day := by
  unfold Time.Year Time.Month Time.Day Time.Date
  rw [dayNumber_midnight]
  exact ⟨rfl, rfl, rfl⟩

theorem firstOfMonth_fields (y m : Int) (hm0 : 1 ≤ m) (hm1 : m ≤ 12) :
    (time.Date y m 1 0 0 0 0).Year = y ∧ (time.Date y m 1 0 0 0 0).Month = m ∧
      (time.Date y m 1 0 0 0 0).Day = 1 := by
  rw [time_Date_midnight]
  simp only [sub_self, add_zero]
  have hd := dayNumber_midnight (monthStart y m)
  have hlt : monthStart y m < monthStart y (m + 1) := by
    rw [monthStart_eq_index, monthStart_eq_index]
    exact monthIndexStart_strictMono (by omega)
  have h := (month_of_day (Time.mk (monthStart y m * Time.nsecPerDay)) y m hm0 hm1).1
    (by rw [hd]; exact ⟨le_refl _, hlt⟩)
  obtain ⟨_, _, _, c3, _⟩ := civil_spec (Time.mk (monthStart y m * Time.nsecPerDay))
  rw [h.1, h.2, hd] at c3
  exact ⟨h.1, h.2, by omega⟩

theorem monthStart_next (y m : Int) :
    monthStart y (m + 1) =
      monthStart (if m = 12 then y + 1 else y) (if m = 12 then 1 else m + 1) := by
  rw [monthStart_eq_index, monthStart_eq_index]
  congr 1
  split_ifs <;> omega

/-! ## Lemmas on the service and its reachable states -/

namespace MemoryRepository

theorem dlookup_kreplace (l : List Entry) (k k' : String) (v : Event) :
    List.dlookup k' (List.kreplace k v l) =
      if k' = k then (List.dlookup k l).map (fun _ => v) else List.dlookup k' l := by
  induction l with
  | nil => simp [List.kreplace]
  | cons kv l ih =>
    obtain ⟨a, b⟩ := kv
    unfold List.kreplace at ih ⊢
    by_cases hka : k = a
    · subst hka
      have hsome : (fun s : Entry => if k = s.1 then some (⟨k, v⟩ : Entry) else none)
          (⟨k, b⟩ : Entry) = some (⟨k, v⟩ : Entry) := by simp
      rw [List.lookmap_cons_some _ _ hsome]
      by_cases hk : k' = k
      · subst hk
        simp [List.dlookup_cons_eq]
      · simp only [hk, if_false]
        rw [List.dlookup_cons_ne _ (⟨k, v⟩ : Entry) hk,
          List.dlookup_cons_ne _ (⟨k, b⟩ : Entry) hk]
    · have hnone : (fun s : Entry => if k = s.1 then some (⟨k, v⟩ : Entry) else none)
          (⟨a, b⟩ : Entry) = none := by simp [hka]
      rw [List.lookmap_cons_none _ _ hnone]
      by_cases hk'a : k' = a
      · subst hk'a
        have hne : ¬ k' = k := fun h => hka h.symm
        simp [List.dlookup_cons_eq, hne]
      · rw [List.dlookup_cons_ne _ (⟨a, b⟩ : Entry) hk'a, ih,
          List.dlookup_cons_ne _ (⟨a, b⟩ : Entry) hk'a]
        by_cases hk : k' = k
        · subst hk
          simp only [if_true]
          rw [List.dlookup_cons_ne _ (⟨a, b⟩ : Entry) hk'a]
        · simp only [hk, if_false]

theorem lookup_replace (s : AList (fun _ : String => Event)) (k k' : String) (v : Event) :
    (s.replace k v).lookup k' =
      if k' = k then (s.lookup k).map (fun _ => v) else s.lookup k' :=
  dlookup_kreplace s.entries k k' v

end MemoryRepository

namespace MemoryRepository

theorem GetByID_cases (r : MemoryRepository) (userID eventID : String) :
    (∃ ev, r.events.lookup (key userID eventID) = some ev ∧
        r.GetByID userID eventID = (some ev, none)) ∨
      (r.events.lookup (key userID eventID) = none ∧
        r.GetByID userID eventID = (none, some Error.ErrEventNotFound)) := by
  unfold GetByID
  cases h : r.events.lookup (key userID eventID) with
  | none => exact Or.inr ⟨rfl, rfl⟩
  | some ev => exact Or.inl ⟨ev, rfl, rfl⟩

theorem Keyed_empty : NewMemoryRepository.Keyed := by
  intro k ev h
  simp [NewMemoryRepository] at h

theorem Keyed_insert (r : MemoryRepository) (ev : Event) (h : r.Keyed) :
    Keyed ⟨r.events.insert (key ev.UserID ev.ID) ev⟩ := by
  intro k e hl
  by_cases hk : k = key ev.UserID ev.ID
  · subst hk
    rw [AList.lookup_insert] at hl
    cases hl
    rfl
  · rw [AList.lookup_insert_ne hk] at hl
    exact h k e hl

theorem Keyed_replace (r : MemoryRepository) (ev : Event) (h : r.Keyed) :
    Keyed ⟨r.events.replace (key ev.UserID ev.ID) ev⟩ := by
  intro k e hl
  rw [lookup_replace] at hl
  by_cases hk : k = key ev.UserID ev.ID
  · simp only [hk, if_true] at hl
    cases hq : r.events.lookup (key ev.UserID ev.ID) with
    | none => simp [hq] at hl
    | some old =>
      simp only [hq, Option.map_some', Option.some.injEq] at hl
      rw [← hl]
      exact hk
  · simp only [hk, if_false] at hl
    exact h k e hl

theorem Keyed_erase (r : MemoryRepository) (k0 : String) (h : r.Keyed) :
    Keyed ⟨r.events.erase k0⟩ := by
  intro k e hl
  by_cases hk : k = k0
  · subst hk
    rw [AList.lookup_erase] at hl
    cases hl
  · rw [AList.lookup_erase_ne hk] at hl
    exact h k e hl

theorem Keyed_Create (r : MemoryRepository) (ev : Event) (h : r.Keyed) :
    (r.Create ev).1.Keyed := by
  unfold Create
  by_cases hk : key ev.UserID ev.ID ∈ r.events
  · simp only [hk, if_true]
    exact h
  · simp only [hk, if_false]
    exact Keyed_insert r ev h

theorem Keyed_Update (r : MemoryRepository) (ev : Event) (h : r.Keyed) :
    (r.Update ev).1.Keyed := by
  unfold Update
  by_cases hk : key ev.UserID ev.ID ∈ r.events
  · simp only [hk, not_true_eq_false, if_false]
    exact Keyed_insert r ev h
  · simp only [hk, not_false_eq_true, if_true]
    exact h

theorem Keyed_Delete (r : MemoryRepository) (userID eventID : String) (h : r.Keyed) :
    (r.Delete userID eventID).1.Keyed := by
  unfold Delete
  by_cases hk : key userID eventID ∈ r.events
  · simp only [hk, not_true_eq_false, if_false]
    exact Keyed_erase r _ h
  · simp only [hk, not_false_eq_true, if_true]
    exact h

theorem archiveVisit_ids (before : Time) (ev : Event) :
    (archiveVisit before ev).UserID = ev.UserID ∧ (archiveVisit before ev).ID = ev.ID := by
  unfold archiveVisit
  split <;> exact ⟨rfl, rfl⟩

theorem Keyed_ArchiveOldEvents (r : MemoryRepository) (cutoff : Time) (h : r.Keyed) :
    (r.ArchiveOldEvents cutoff).1.Keyed := by
  intro k e hl
  rw [lookup_ArchiveOldEvents] at hl
  cases hq : r.events.lookup k with
  | none => simp [hq] at hl
  | some old =>
    simp only [hq, Option.map_some', Option.some.injEq] at hl
    rw [← hl, (archiveVisit_ids cutoff old).1, (archiveVisit_ids cutoff old).2]
    exact h k old hq

end MemoryRepository

namespace EventService
open MemoryRepository

/-- The record that `UpdateEvent` writes through the pointer returned by
`GetByID`. -/
theorem UpdateEvent_of_found (s : EventService) (clock : Nat → Time)
    (userID eventID text : String) (date : Time) (reminderTime : Option Time) (stored : Event)
    (h : s.repo.events.lookup (key userID eventID) = some stored) :
    s.UpdateEvent clock userID eventID text date reminderTime =
      (match ({ stored with Text := text, Date := date, ReminderTime := reminderTime,
                            UpdatedAt := clock 0 } : Event).Validate with
      | some err =>
        (⟨⟨s.repo.events.replace (key userID eventID)
            { stored with Text := text, Date := date, ReminderTime := reminderTime,
                          UpdatedAt := clock 0 }⟩⟩, none, some err)
      | none =>
        match (MemoryRepository.mk (s.repo.events.replace (key userID eventID)
            { stored with Text := text, Date := date, ReminderTime := reminderTime,
                          UpdatedAt := clock 0 })).Update
            { stored with Text := text, Date := date, ReminderTime := reminderTime,
                          UpdatedAt := clock 0 } with
        | (repo', some err) => (⟨repo'⟩, none, some err)
        | (repo', none) =>
          (⟨repo'⟩, some { stored with Text := text, Date := date,
                                       ReminderTime := reminderTime,
                                       UpdatedAt := clock 0 }, none)) := by
  unfold UpdateEvent
  rw [GetByID_of_lookup_some _ _ _ _ h]

theorem UpdateEvent_of_notFound (s : EventService) (clock : Nat → Time)
    (userID eventID text : String) (date : Time) (reminderTime : Option Time)
    (h : s.repo.events.lookup (key userID eventID) = none) :
    s.UpdateEvent clock userID eventID text date reminderTime =
      (s, none, some Error.ErrEventNotFound) := by
  unfold UpdateEvent
  rw [GetByID_of_lookup_none _ _ _ h]

end EventService

namespace EventService
open MemoryRepository

theorem UpdateEvent_of_keyed (s : EventService) (clock : Nat → Time)
    (userID eventID text : String) (date : Time) (reminderTime : Option Time) (stored : Event)
    (hkeyed : s.repo.Keyed)
    (h : s.repo.events.lookup (key userID eventID) = some stored) :
    (∀ err, ({ stored with Text := text, Date := date, ReminderTime := reminderTime,
                           UpdatedAt := clock 0 } : Event).Validate = some err →
      s.UpdateEvent clock userID eventID text date reminderTime =
        (⟨⟨s.repo.events.replace (key userID eventID)
            { stored with Text := text, Date := date, ReminderTime := reminderTime,
                          UpdatedAt := clock 0 }⟩⟩, none, some err)) ∧
    (({ stored with Text := text, Date := date, ReminderTime := reminderTime,
                    UpdatedAt := clock 0 } : Event).Validate = none →
      s.UpdateEvent clock userID eventID text date reminderTime =
        (⟨⟨(s.repo.events.replace (key userID eventID)
            { stored with Text := text, Date := date, ReminderTime := reminderTime,
                          UpdatedAt := clock 0 }).insert (key userID eventID)
            { stored with Text := text, Date := date, ReminderTime := reminderTime,
                          UpdatedAt := clock 0 }⟩⟩,
          some { stored with Text := text, Date := date, ReminderTime := reminderTime,
                             UpdatedAt := clock 0 }, none)) := by
  have hk0 : key userID eventID = key stored.UserID stored.ID := hkeyed _ _ h
  have hmem : key userID eventID ∈ s.repo.events :=
    AList.lookup_isSome.1 (by rw [h]; rfl)
  constructor
  · intro err hv
    rw [UpdateEvent_of_found s clock userID eventID text date reminderTime stored h, hv]
  · intro hv
    rw [UpdateEvent_of_found s clock userID eventID text date reminderTime stored h, hv]
    simp only
    have hu : (MemoryRepository.mk (s.repo.events.replace (key userID eventID)
        { stored with Text := text, Date := date, ReminderTime := reminderTime,
                      UpdatedAt := clock 0 })).Update
        { stored with Text := text, Date := date, ReminderTime := reminderTime,
                      UpdatedAt := clock 0 } =
        (⟨(s.repo.events.replace (key userID eventID)
            { stored with Text := text, Date := date, ReminderTime := reminderTime,
                          UpdatedAt := clock 0 }).insert (key userID eventID)
            { stored with Text := text, Date := date, ReminderTime := reminderTime,
                          UpdatedAt := clock 0 }⟩, none) := by
      unfold Update
      simp only
      rw [← hk0]
      have hmem2 : key userID eventID ∈ s.repo.events.replace (key userID eventID)
          { stored with Text := text, Date := date, ReminderTime := reminderTime,
                        UpdatedAt := clock 0 } := AList.mem_replace.2 hmem
      simp only [hmem2, not_true_eq_false, if_false]
    rw [hu]

theorem Keyed_UpdateEvent (s : EventService) (clock : Nat → Time)
    (userID eventID text : String) (date : Time) (reminderTime : Option Time)
    (hkeyed : s.repo.Keyed) :
    (s.UpdateEvent clock userID eventID text date reminderTime).1.repo.Keyed := by
  rcases GetByID_cases s.repo userID eventID with ⟨stored, h, _⟩ | ⟨h, _⟩
  · have hk0 : key userID eventID = key stored.UserID stored.ID := hkeyed _ _ h
    obtain ⟨h1, h2⟩ := UpdateEvent_of_keyed s clock userID eventID text date reminderTime
      stored hkeyed h
    have hrep : Keyed ⟨s.repo.events.replace (key userID eventID)
        { stored with Text := text, Date := date, ReminderTime := reminderTime,
                      UpdatedAt := clock 0 }⟩ := by
      rw [hk0]
      exact Keyed_replace s.repo
        { stored with Text := text, Date := date, ReminderTime := reminderTime,
                      UpdatedAt := clock 0 } hkeyed
    cases hv : ({ stored with Text := text, Date := date, ReminderTime := reminderTime,
                              UpdatedAt := clock 0 } : Event).Validate with
    | some err =>
      rw [h1 err hv]
      exact hrep
    | none =>
      rw [h2 hv, hk0]
      exact Keyed_insert ⟨_⟩
        { stored with Text := text, Date := date, ReminderTime := reminderTime,
                      UpdatedAt := clock 0 } (by rw [← hk0]; exact hrep)
  · rw [UpdateEvent_of_notFound s clock userID eventID text date reminderTime h]
    exact hkeyed

theorem Keyed_CreateEvent (s : EventService) (clock : Nat → Time) (userID text : String)
    (date : Time) (reminderTime : Option Time) (r : EventService × Option Event × Option Error)
    (hkeyed : s.repo.Keyed) (h : s.CreateEvent clock userID text date reminderTime = some r) :
    r.1.repo.Keyed := by
  unfold CreateEvent at h
  cases hid : generateID clock with
  | none => rw [hid] at h; cases h
  | some id =>
    rw [hid] at h
    simp only [Option.map_some', Option.some.injEq] at h
    rw [← h]
    split
    · exact hkeyed
    · next hv =>
      have hc := Keyed_Create s.repo
        { ID := id, UserID := userID, Text := text, Date := date, ReminderTime := reminderTime,
          CreatedAt := clock 7, UpdatedAt := clock 8, Archived := false } hkeyed
      split
      · next repo err hcr => rw [hcr] at hc; exact hc
      · next repo hcr => rw [hcr] at hc; exact hc

theorem Keyed_DeleteEvent (s : EventService) (userID eventID : String) (hkeyed : s.repo.Keyed) :
    (s.DeleteEvent userID eventID).1.repo.Keyed := by
  unfold DeleteEvent
  split
  · exact hkeyed
  · exact Keyed_Delete s.repo userID eventID hkeyed

theorem Reachable.keyed {s : EventService} (h : s.Reachable) : s.repo.Keyed := by
  induction h with
  | empty => exact Keyed_empty
  | createEvent clock userID text date reminderTime r _ hc ih =>
    exact Keyed_CreateEvent _ clock userID text date reminderTime r ih hc
  | updateEvent clock userID eventID text date reminderTime _ ih =>
    exact Keyed_UpdateEvent _ clock userID eventID text date reminderTime ih
  | deleteEvent userID eventID _ ih => exact Keyed_DeleteEvent _ userID eventID ih
  | archiveOldEvents cutoff _ ih => exact Keyed_ArchiveOldEvents _ cutoff ih

theorem reachable_afterFirstCreate : afterFirstCreate.Reachable :=
  Reachable.createEvent firstClock "user1" "Event 1" jan15 none
    (afterFirstCreate, some firstCreated, none) Reachable.empty rfl

end EventService

/-! ## Lemmas on the range queries and the log sink -/

theorem mem_GetByDateRange (r : MemoryRepository) (userID : String) (start end_ : Time)
    (ev : Event) :
    ev ∈ (r.GetByDateRange userID start end_).1 ↔
      ((∃ k, r.events.lookup k = some ev) ∧ ev.UserID = userID ∧ ev.Archived = false ∧
        start.nsec ≤ ev.Date.nsec ∧ ev.Date.nsec < end_.nsec) := by
  have hres : (r.GetByDateRange userID start end_).1 =
      (r.events.entries.filter (fun kv => selected userID start end_ kv.2)).map
        (fun kv => kv.2) := by
    simp [GetByDateRange, foldl_rangeStep]
  rw [hres]
  simp only [List.mem_map, List.mem_filter]
  constructor
  · rintro ⟨⟨k, ev'⟩, ⟨hmem, hsel⟩, rfl⟩
    exact ⟨⟨k, (mem_entries_iff_lookup r k ev').1 hmem⟩,
      (selected_iff userID start end_ ev').1 hsel⟩
  · rintro ⟨⟨k, hk⟩, hsel⟩
    exact ⟨⟨k, ev⟩, ⟨(mem_entries_iff_lookup r k ev).2 hk,
      (selected_iff userID start end_ ev).2 hsel⟩, rfl⟩

theorem GetEventsForDay_eq (s : EventService) (userID : String) (d : Time) :
    s.GetEventsForDay userID d =
      s.repo.GetByDateRange userID d.midnight (d.midnight.Add (24 * time.Hour)) := by
  unfold EventService.GetEventsForDay Time.midnight
  simp only [time_Date_of_day]

theorem GetEventsForWeek_eq (s : EventService) (userID : String) (d : Time) :
    s.GetEventsForWeek userID d =
      s.repo.GetByDateRange userID d.midnight (d.midnight.Add (7 * 24 * time.Hour)) := by
  unfold EventService.GetEventsForWeek Time.midnight
  simp only [time_Date_of_day]

theorem midnight_le_iff (z : Int) (t : Time) :
    z * Time.nsecPerDay ≤ t.nsec ↔ z ≤ t.dayNumber := by
  unfold Time.dayNumber Time.nsecPerDay
  show z * (86400 * 1000000000) ≤ t.nsec ↔ z ≤ t.nsec / (86400 * 1000000000)
  constructor <;> intro h <;> omega

theorem lt_midnight_iff (z : Int) (t : Time) :
    t.nsec < z * Time.nsecPerDay ↔ t.dayNumber < z := by
  unfold Time.dayNumber Time.nsecPerDay
  show t.nsec < z * (86400 * 1000000000) ↔ t.nsec / (86400 * 1000000000) < z
  constructor <;> intro h <;> omega

theorem firstOfMonth_clock (y m : Int) :
    (time.Date y m 1 0 0 0 0).Hour = 0 ∧ (time.Date y m 1 0 0 0 0).Minute = 0 ∧
      (time.Date y m 1 0 0 0 0).Second = 0 ∧ (time.Date y m 1 0 0 0 0).Nanosecond = 0 := by
  rw [time_Date_midnight]
  have hc := clock_midnight (monthStart y m + (1 - 1))
  exact ⟨hc.1, hc.2.1, hc.2.2, nanosecond_midnight _⟩

theorem firstOfMonth_nsec (y m : Int) :
    (time.Date y m 1 0 0 0 0).nsec = monthStart y m * Time.nsecPerDay := by
  rw [time_Date_midnight]
  simp

theorem nextMonth_eq (y m : Int) (hm0 : 1 ≤ m) (hm1 : m ≤ 12) :
    (time.Date y m 1 0 0 0 0).AddDate 0 1 0 =
      time.Date (if m = 12 then y + 1 else y) (if m = 12 then 1 else m + 1) 1 0 0 0 0 := by
  obtain ⟨f1, f2, f3⟩ := firstOfMonth_fields y m hm0 hm1
  obtain ⟨c1, c2, c3, c4⟩ := firstOfMonth_clock y m
  unfold Time.AddDate
  rw [f1, f2, f3, c1, c2, c3, c4]
  simp only [add_zero]
  rw [time_Date_midnight, time_Date_midnight, monthStart_next]

theorem abs_UTC (t : Time) : t.abs time.UTC = t := by
  unfold Time.abs time.UTC
  simp

theorem DateIn_UTC (year month day hour min sec nsec : Int) :
    time.DateIn year month day hour min sec nsec time.UTC =
      time.Date year month day hour min sec nsec := by
  unfold time.DateIn time.UTC
  simp

theorem AddDateIn_UTC (t : Time) (years months days : Int) :
    t.AddDateIn years months days time.UTC = t.AddDate years months days := by
  unfold Time.AddDateIn Time.AddDate
  rw [abs_UTC, DateIn_UTC]

theorem monthIndexStart_add_le_succ (n : Int) :
    monthIndexStart n + 28 ≤ monthIndexStart (n + 1) := by
  unfold monthIndexStart monthStart
  obtain ⟨q, r, hq, hr0, hr1⟩ : ∃ q r : Int, n - 1 = 12 * q + r ∧ 0 ≤ r ∧ r ≤ 11 :=
    ⟨(n - 1) / 12, (n - 1) % 12, by omega, by omega, by omega⟩
  have e1 : (n - 1) / 12 = q := by omega
  have e2 : (n - 1) % 12 = r := by omega
  have e3 : (n + 1 - 1) / 12 = if r = 11 then q + 1 else q := by split_ifs <;> omega
  have e4 : (n + 1 - 1) % 12 = if r = 11 then 0 else r + 1 := by split_ifs <;> omega
  rw [e1, e2, e3, e4]
  simp only [daysSinceEpoch_eq, zero_add]
  have s := marchDays_step q
  interval_cases r <;> norm_num [time.daysBefore] <;> (try split_ifs at *) <;> omega

theorem monthStart_add_le_next (y m : Int) : monthStart y m + 28 ≤ monthStart y (m + 1) := by
  rw [monthStart_eq_index, monthStart_eq_index]
  have := monthIndexStart_add_le_succ (12 * y + m)
  rw [show 12 * y + (m + 1) = 12 * y + m + 1 by ring]
  exact this

theorem Unix_sub_offset (t : Time) (o : Int) :
    (Time.mk (t.nsec - o * 1000000000)).Unix = t.Unix - o := by
  unfold Time.Unix
  show (t.nsec - o * 1000000000 - Time.unixEpoch) / 1000000000 =
    (t.nsec - Time.unixEpoch) / 1000000000 - o
  omega

theorem DateIn_of_steady (year month day hour min sec nsec : Int) (loc : Location)
    (B : Int) (N : Time) (hN : time.Date year month day hour min sec nsec = N)
    (hb : loc.Bounded B) (hs : loc.SteadyAround B N) :
    time.DateIn year month day hour min sec nsec loc =
      ⟨N.nsec - (loc.lookup N.Unix).1 * 1000000000⟩ := by
  unfold time.DateIn
  rw [hN]
  simp only
  by_cases h0 : (loc.lookup N.Unix).1 = 0
  · rw [if_neg (by simpa using h0), h0]
    simp
  · rw [if_pos h0]
    have hb0 := hb N.Unix
    have hsteady := hs (N.Unix - (loc.lookup N.Unix).1) (by omega) (by omega)
    split_ifs
    · rw [hsteady]
    · rfl

theorem abs_of_steady (loc : Location) (B : Int) (N : Time) (hb : loc.Bounded B)
    (hs : loc.SteadyAround B N) :
    (Time.mk (N.nsec - (loc.lookup N.Unix).1 * 1000000000)).abs loc = N := by
  unfold Time.abs
  rw [Unix_sub_offset]
  have hb0 := hb N.Unix
  rw [hs (N.Unix - (loc.lookup N.Unix).1) (by omega) (by omega)]
  simp

theorem le_abs_iff (loc : Location) (B : Int) (N t : Time) (hb : loc.Bounded B)
    (hs : loc.SteadyAround B N) :
    N.nsec - (loc.lookup N.Unix).1 * 1000000000 ≤ t.nsec ↔ N.nsec ≤ (t.abs loc).nsec := by
  have hbN := hb N.Unix
  have hbt := hb t.Unix
  have hst := hs t.Unix
  unfold Time.abs
  simp only
  have hN : N.Unix = (N.nsec - Time.unixEpoch) / 1000000000 := rfl
  have ht : t.Unix = (t.nsec - Time.unixEpoch) / 1000000000 := rfl
  generalize (loc.lookup N.Unix).1 = o at *
  generalize (loc.lookup t.Unix).1 = ot at *
  generalize N.Unix = u at *
  generalize t.Unix = tu at *
  generalize Time.unixEpoch = E at *
  by_cases h1 : u - 2 * B ≤ tu
  · by_cases h2 : tu ≤ u + 2 * B
    · have := hst h1 h2
      subst this
      constructor <;> intro h <;> omega
    · constructor <;> intro h <;> omega
  · constructor <;> intro h <;> omega

theorem abs_lt_iff (loc : Location) (B : Int) (N t : Time) (hb : loc.Bounded B)
    (hs : loc.SteadyAround B N) :
    t.nsec < N.nsec - (loc.lookup N.Unix).1 * 1000000000 ↔ (t.abs loc).nsec < N.nsec := by
  rw [← not_le, ← not_le, le_abs_iff loc B N t hb hs]

theorem firstOfMonth_located (y m : Int) (loc : Location) (B : Int)
    (hb : loc.Bounded B) (hs : loc.SteadyAround B (time.Date y m 1 0 0 0 0)) :
    time.DateIn y m 1 0 0 0 0 loc =
        ⟨monthStart y m * Time.nsecPerDay -
          (loc.lookup (time.Date y m 1 0 0 0 0).Unix).1 * 1000000000⟩ ∧
      (time.DateIn y m 1 0 0 0 0 loc).abs loc = time.Date y m 1 0 0 0 0 ∧
      (time.DateIn y m 1 0 0 0 0 loc).Nanosecond = 0 := by
  have h1 := DateIn_of_steady y m 1 0 0 0 0 loc B _ rfl hb hs
  have h2 := abs_of_steady loc B _ hb hs
  rw [← h1] at h2
  refine ⟨?_, h2, ?_⟩
  · rw [h1, firstOfMonth_nsec]
  · rw [h1, firstOfMonth_nsec]
    unfold Time.Nanosecond Time.nsecPerDay
    show (monthStart y m * (86400 * 1000000000) -
      (loc.lookup (time.Date y m 1 0 0 0 0).Unix).1 * 1000000000) % 1000000000 = 0
    omega

theorem nextMonth_located (y m y2 m2 : Int) (loc : Location) (B : Int)
    (hm0 : 1 ≤ m) (hm1 : m ≤ 12)
    (hy2 : y2 = if m = 12 then y + 1 else y) (hm2 : m2 = if m = 12 then 1 else m + 1)
    (hb : loc.Bounded B) (hs : loc.SteadyAround B (time.Date y m 1 0 0 0 0))
    (he : loc.SteadyAround B (time.Date y2 m2 1 0 0 0 0)) :
    (time.DateIn y m 1 0 0 0 0 loc).AddDateIn 0 1 0 loc = time.DateIn y2 m2 1 0 0 0 0 loc := by
  obtain ⟨_, a2, a3⟩ := firstOfMonth_located y m loc B hb hs
  obtain ⟨f1, f2, f3⟩ := firstOfMonth_fields y m hm0 hm1
  obtain ⟨c1, c2, c3, _⟩ := firstOfMonth_clock y m
  have hN : time.Date y (m + 1) 1 0 0 0 0 = time.Date y2 m2 1 0 0 0 0 := by
    rw [time_Date_midnight, time_Date_midnight, monthStart_next, hy2, hm2]
  unfold Time.AddDateIn
  rw [a2, a3, f1, f2, f3, c1, c2, c3]
  simp only [add_zero]
  rw [DateIn_of_steady y (m + 1) 1 0 0 0 0 loc B _ hN hb he,
    DateIn_of_steady y2 m2 1 0 0 0 0 loc B _ rfl hb he]

theorem GetEventsForMonth_eq (s : EventService) (userID : String) (d : Time) (loc : Location)
    (B y m y2 m2 : Int) (hy : (d.abs loc).Year = y) (hm : (d.abs loc).Month = m)
    (hy2 : y2 = if m = 12 then y + 1 else y) (hm2 : m2 = if m = 12 then 1 else m + 1)
    (hb : loc.Bounded B) (hs : loc.SteadyAround B (time.Date y m 1 0 0 0 0))
    (he : loc.SteadyAround B (time.Date y2 m2 1 0 0 0 0)) :
    s.GetEventsForMonth userID d loc =
      s.repo.GetByDateRange userID (time.DateIn y m 1 0 0 0 0 loc)
        (time.DateIn y2 m2 1 0 0 0 0 loc) := by
  obtain ⟨hm0, hm1, _⟩ := civil_spec (d.abs loc)
  rw [hm] at hm0 hm1
  have hr : 1 ≤ m2 ∧ m2 ≤ 12 := by
    rw [hm2]
    split_ifs <;> omega
  obtain ⟨_, b2, _⟩ := firstOfMonth_located y2 m2 loc B hb he
  obtain ⟨g1, g2, _⟩ := firstOfMonth_fields y2 m2 hr.1 hr.2
  unfold EventService.GetEventsForMonth
  simp only
  rw [hy, hm, nextMonth_located y m y2 m2 loc B hm0 hm1 hy2 hm2 hb hs he, b2, g1, g2]

theorem fixedZone_bounded (offset B : Int) (h0 : -B ≤ offset) (h1 : offset ≤ B) :
    (time.FixedZone offset).Bounded B :=
  fun _ => ⟨h0, h1⟩

theorem fixedZone_steady (offset B : Int) (t : Time) :
    (time.FixedZone offset).SteadyAround B t :=
  fun _ _ _ => rfl

theorem asuncion_bounded : asuncion.Bounded 14400 := by
  intro sec
  unfold asuncion
  simp only
  split_ifs <;> decide

theorem asuncion_steady (t : Time) (h : 1506830400 + 28800 ≤ t.Unix) :
    asuncion.SteadyAround 14400 t := by
  intro sec h1 _
  unfold asuncion
  simp only
  rw [if_neg (by omega), if_neg (by omega)]

theorem process_drain (handed q : List LogEntry) (capacity : Nat) (closed receiving : Bool)
    (output : List String) :
    AsyncLogger.process ⟨q, capacity, closed, receiving, handed, output⟩
        (handed.length + q.length) =
      ⟨[], capacity, closed, receiving, [], output ++ (handed ++ q).map AsyncLogger.render⟩ := by
  induction handed generalizing output with
  | nil =>
    induction q generalizing output with
    | nil => simp [AsyncLogger.process]
    | cons entry rest ih =>
      have h := ih (output ++ [AsyncLogger.render entry])
      simp only [List.length_nil, Nat.zero_add, List.nil_append] at h ⊢
      simp only [List.length_cons, AsyncLogger.process, AsyncLogger.processOne]
      rw [h]
      simp
  | cons entry rest ih =>
    have h := ih (output ++ [AsyncLogger.render entry])
    rw [show (entry :: rest).length + q.length = (rest.length + q.length) + 1 by
      simp only [List.length_cons]; omega]
    simp only [AsyncLogger.process, AsyncLogger.processOne]
    rw [h]
    simp

theorem sendOrLog_receiving (h : EventHandler) (task : ReminderTask) (hr : h.receiving = true) :
    h.sendOrLog task = { h with receiving := false, received := h.received ++ [task] } := by
  simp [EventHandler.sendOrLog, hr]

theorem sendOrLog_room (h : EventHandler) (task : ReminderTask) (hr : h.receiving = false)
    (hroom : h.reminderChan.length < h.capacity) :
    h.sendOrLog task = { h with reminderChan := h.reminderChan ++ [task] } := by
  simp [EventHandler.sendOrLog, hr, hroom]

theorem sendOrLog_full (h : EventHandler) (task : ReminderTask) (hr : h.receiving = false)
    (hfull : h.capacity ≤ h.reminderChan.length) :
    h.sendOrLog task =
      { h with logged := h.logged ++ [⟨LogLevel.LevelError, "Reminder channel full", []⟩] } := by
  have hnot : ¬ h.reminderChan.length < h.capacity := by omega
  simp [EventHandler.sendOrLog, hr, hnot]

theorem sendOrLog_not_receiving (h : EventHandler) (task : ReminderTask) :
    (h.sendOrLog task).receiving = false := by
  unfold EventHandler.sendOrLog
  cases hr : h.receiving with
  | true => simp
  | false =>
    by_cases hroom : h.reminderChan.length < h.capacity
    · simp [hroom, hr]
    · simp [hroom, hr]

theorem Log_not_receiving (l l' : AsyncLogger) (now : Time) (level : LogLevel)
    (message : String) (fields : List (String × String))
    (hlog : l.Log now level message fields = some l') : l'.receiving = false := by
  unfold AsyncLogger.Log at hlog
  cases hc : l.closed with
  | true => simp [hc] at hlog
  | false =>
    cases hr : l.receiving with
    | true =>
      simp [hc, hr] at hlog
      subst hlog
      simp
    | false =>
      by_cases hroom : l.logChan.length < l.capacity
      · simp [hc, hr, hroom] at hlog
        subst hlog
        simp [hr]
      · simp [hc, hr, hroom] at hlog
        subst hlog
        simp [hr]

theorem processOne_receiving_empty (l : AsyncLogger)
    (hwf : l.receiving = true → l.logChan = []) :
    l.processOne.receiving = true → l.processOne.logChan = [] := by
  unfold AsyncLogger.processOne
  cases hh : l.received with
  | cons entry rest => simpa using hwf
  | nil =>
    cases hq : l.logChan with
    | cons entry rest =>
      intro hr
      simp only at hr
      have := hwf hr
      rw [hq] at this
      cases this
    | nil =>
      cases hc : l.closed with
      | true => simp [hq]
      | false => simp [hq]


theorem Log_receiving (l : AsyncLogger) (now : Time) (level : LogLevel) (message : String)
    (fields : List (String × String)) (hopen : l.closed = false) (hr : l.receiving = true) :
    l.Log now level message fields =
      some { l with receiving := false
                    received := l.received ++ [⟨level, now, message, fields⟩] } := by
  simp [AsyncLogger.Log, hopen, hr]

theorem Log_room (l : AsyncLogger) (now : Time) (level : LogLevel) (message : String)
    (fields : List (String × String)) (hopen : l.closed = false) (hr : l.receiving = false)
    (hroom : l.logChan.length < l.capacity) :
    l.Log now level message fields =
      some { l with logChan := l.logChan ++ [⟨level, now, message, fields⟩] } := by
  simp [AsyncLogger.Log, hopen, hr, hroom]

theorem Log_full (l : AsyncLogger) (now : Time) (level : LogLevel) (message : String)
    (fields : List (String × String)) (hopen : l.closed = false) (hr : l.receiving = false)
    (hfull : l.capacity ≤ l.logChan.length) :
    l.Log now level message fields =
      some { l with output := l.output ++ [AsyncLogger.fallbackLine level message] } := by
  have hnot : ¬ l.logChan.length < l.capacity := by omega
  simp [AsyncLogger.Log, hopen, hr, hnot]

theorem not_receiving_of_full (receiving : Bool) (n capacity : Nat) {α : Type} (q : List α)
    (hwf : receiving = true → q = []) (hn : n = q.length) (hcap : 0 < capacity)
    (hfull : capacity ≤ n) : receiving = false := by
  cases receiving with
  | false => rfl
  | true =>
    have := hwf rfl
    subst this
    simp at hn
    omega

/-- The handlers on a channel without buffer, capacity 0: the task of a
successful request is handed to the dispatcher when the dispatcher is waiting,
and nothing is logged; when the dispatcher is not waiting, `Reminder channel
full` is logged. -/
theorem handlers_enqueue_unbuffered :
    EventHandler.CreateEvent ⟨⟨NewMemoryRepository⟩, [], 0, true, [], []⟩ firstClock "user1"
        "Event 1" jan15 (some jan16) =
      some (⟨afterRemindedCreate, [], 0, false, [remindedTask], []⟩,
        Response.sendSuccess
          [("event_id", "20240115103000-X7hrBL"), ("message", "Event created successfully")]) ∧
    EventHandler.CreateEvent ⟨⟨NewMemoryRepository⟩, [], 0, false, [], []⟩ firstClock "user1"
        "Event 1" jan15 (some jan16) =
      some (⟨afterRemindedCreate, [], 0, false, [],
          [⟨LogLevel.LevelError, "Reminder channel full", []⟩]⟩,
        Response.sendSuccess
          [("event_id", "20240115103000-X7hrBL"), ("message", "Event created successfully")]) :=
  ⟨rfl, rfl⟩

/-- The sink on a channel without buffer, capacity 0: an entry logged while
the drain worker is waiting is handed to the drain worker, which prints its
line; an entry logged while the drain worker is not waiting is printed on the
fallback path. -/
theorem log_sink_unbuffered :
    (AsyncLogger.NewAsyncLogger 0).processOne = ⟨[], 0, false, true, [], []⟩ ∧
    AsyncLogger.Log ⟨[], 0, false, true, [], []⟩ jan15 LogLevel.LevelInfo "Starting server" [] =
      some ⟨[], 0, false, false, [⟨LogLevel.LevelInfo, jan15, "Starting server", []⟩], []⟩ ∧
    AsyncLogger.processOne
        ⟨[], 0, false, false, [⟨LogLevel.LevelInfo, jan15, "Starting server", []⟩], []⟩ =
      ⟨[], 0, false, false, [], ["[2024-01-15 00:00:00] [INFO] Starting server\n"]⟩ ∧
    (AsyncLogger.NewAsyncLogger 0).Log jan15 LogLevel.LevelInfo "Starting server" [] =
      some ⟨[], 0, false, false, [], ["[FALLBACK] INFO: Starting server\n"]⟩ := by
  decide

/-! ## The claims on the service, the workers, the handlers and the log sink -/

/-- C11, the code at the failing input: `CreateEvent` for `user1` on the empty
store, then `UpdateEvent` of the created event with an empty text. The update
returns `ErrInvalidEventText` and no event, but the state reached holds the
record with the empty text under the key of the event, and `Validate` rejects
that stored record. -/
theorem rejected_update_leaves_invalid_event :
    EventService.CreateEvent ⟨NewMemoryRepository⟩ firstClock "user1" "Event 1" jan15 none =
      some (afterFirstCreate, some firstCreated, none) ∧
    afterFirstCreate.UpdateEvent secondClock "user1" "20240115103000-X7hrBL" "" jan15 none =
      (afterRejectedUpdate, none, some Error.ErrInvalidEventText) ∧
    afterRejectedUpdate.Reachable ∧
    afterRejectedUpdate.repo.GetByID "user1" "20240115103000-X7hrBL" =
      (some emptiedEvent, none) ∧
    emptiedEvent.Text = "" ∧
    emptiedEvent.Validate = some Error.ErrInvalidEventText :=
  ⟨rfl, rfl,
    EventService.Reachable.updateEvent secondClock "user1" "20240115103000-X7hrBL" "" jan15
      none EventService.reachable_afterFirstCreate,
    by decide, rfl, by decide⟩

/-- C12: in every state of the service reached from the empty store, when
`UpdateEvent` returns no error, it returns an event that is the record stored
under the user and event identifiers afterwards; that record has the new text,
date and reminder time, and the `ID`, `UserID`, `CreatedAt` and `Archived` of the
record stored there before the call; and the record stored under every other
key is unchanged. -/
theorem UpdateEvent_frame (s : EventService) (clock : Nat → Time)
    (userID eventID text : String) (date : Time) (reminderTime : Option Time)
    (hs : s.Reachable)
    (hok : (s.UpdateEvent clock userID eventID text date reminderTime).2.2 = none) :
    ∃ old ev : Event,
      s.repo.GetByID userID eventID = (some old, none) ∧
      (s.UpdateEvent clock userID eventID text date reminderTime).2.1 = some ev ∧
      (s.UpdateEvent clock userID eventID text date reminderTime).1.repo.GetByID
        userID eventID = (some ev, none) ∧
      ev.Text = text ∧ ev.Date = date ∧ ev.ReminderTime = reminderTime ∧
      ev.ID = old.ID ∧ ev.UserID = old.UserID ∧ ev.CreatedAt = old.CreatedAt ∧
      ev.Archived = old.Archived ∧
      (∀ k, k ≠ key userID eventID →
        (s.UpdateEvent clock userID eventID text date reminderTime).1.repo.events.lookup k =
          s.repo.events.lookup k) := by
  have hkeyed := hs.keyed
  rcases GetByID_cases s.repo userID eventID with ⟨stored, h, hg⟩ | ⟨h, _⟩
  · obtain ⟨h1, h2⟩ := EventService.UpdateEvent_of_keyed s clock userID eventID text date
      reminderTime stored hkeyed h
    cases hv : ({ stored with Text := text, Date := date, ReminderTime := reminderTime,
                              UpdatedAt := clock 0 } : Event).Validate with
    | some err =>
      rw [h1 err hv] at hok
      cases hok
    | none =>
      rw [h2 hv]
      refine ⟨stored, _, hg, rfl, ?_, rfl, rfl, rfl, rfl, rfl, rfl, rfl, ?_⟩
      · exact GetByID_of_lookup_some _ _ _ _ (AList.lookup_insert _)
      · intro k hk
        simp only
        rw [AList.lookup_insert_ne hk, lookup_replace, if_neg hk]
  · rw [EventService.UpdateEvent_of_notFound s clock userID eventID text date reminderTime h]
      at hok
    cases hok

/-- Witness of C12: the update of the test `TestEventService_UpdateEvent` on
the store that holds `firstCreated`. -/
theorem UpdateEvent_frame_witness :
    afterFirstCreate.Reachable ∧
    (afterFirstCreate.UpdateEvent secondClock "user1" "20240115103000-X7hrBL" "Updated event"
      (jan15.Add (5 * 24 * time.Hour)) none).2.2 = none ∧
    ∃ old ev : Event,
      afterFirstCreate.repo.GetByID "user1" "20240115103000-X7hrBL" = (some old, none) ∧
      (afterFirstCreate.UpdateEvent secondClock "user1" "20240115103000-X7hrBL"
        "Updated event" (jan15.Add (5 * 24 * time.Hour)) none).2.1 = some ev ∧
      (afterFirstCreate.UpdateEvent secondClock "user1" "20240115103000-X7hrBL"
        "Updated event" (jan15.Add (5 * 24 * time.Hour)) none).1.repo.GetByID
        "user1" "20240115103000-X7hrBL" = (some ev, none) ∧
      ev.Text = "Updated event" ∧ ev.Date = jan15.Add (5 * 24 * time.Hour) ∧
      ev.ReminderTime = none ∧
      ev.ID = old.ID ∧ ev.UserID = old.UserID ∧ ev.CreatedAt = old.CreatedAt ∧
      ev.Archived = old.Archived ∧
      (∀ k, k ≠ key "user1" "20240115103000-X7hrBL" →
        (afterFirstCreate.UpdateEvent secondClock "user1" "20240115103000-X7hrBL"
          "Updated event" (jan15.Add (5 * 24 * time.Hour)) none).1.repo.events.lookup k =
          afterFirstCreate.repo.events.lookup k) :=
  ⟨EventService.reachable_afterFirstCreate, by decide,
    UpdateEvent_frame afterFirstCreate secondClock "user1" "20240115103000-X7hrBL"
      "Updated event" (jan15.Add (5 * 24 * time.Hour)) none
      EventService.reachable_afterFirstCreate (by decide)⟩

/-- C13: with `d.midnight` the time 00:00:00 of the calendar day of `d` in UTC
(same year, month and day as `d`, and hour, minute, second and nanosecond
zero, at most 24 hours before `d`): `GetEventsForDay` is the range query from
`d.midnight` to 24 hours later and returns exactly the stored events of the
user that are not archived and dated in that range; `GetEventsForWeek` is the
range query to 7 times 24 hours later, likewise. The event dated 2024-01-15 is
returned for the day 2024-01-15 and not for 2024-01-16, and a stored event of
the user that is not archived and dated a whole number of days, from 0 to 6,
after `d` is returned by the week query. -/
theorem GetEventsForDay_Week_exact (s : EventService) (userID : String) (d : Time) :
    (d.midnight.Year = d.Year ∧ d.midnight.Month = d.Month ∧ d.midnight.Day = d.Day ∧
      d.midnight.Hour = 0 ∧ d.midnight.Minute = 0 ∧ d.midnight.Second = 0 ∧
      d.midnight.Nanosecond = 0 ∧
      d.midnight.nsec ≤ d.nsec ∧ d.nsec < d.midnight.nsec + 24 * time.Hour) ∧
    s.GetEventsForDay userID d =
      s.repo.GetByDateRange userID d.midnight (d.midnight.Add (24 * time.Hour)) ∧
    (∀ ev : Event, ev ∈ (s.GetEventsForDay userID d).1 ↔
      ((∃ k, s.repo.events.lookup k = some ev) ∧ ev.UserID = userID ∧ ev.Archived = false ∧
        d.midnight.nsec ≤ ev.Date.nsec ∧ ev.Date.nsec < d.midnight.nsec + 24 * time.Hour)) ∧
    s.GetEventsForWeek userID d =
      s.repo.GetByDateRange userID d.midnight (d.midnight.Add (7 * 24 * time.Hour)) ∧
    (∀ ev : Event, ev ∈ (s.GetEventsForWeek userID d).1 ↔
      ((∃ k, s.repo.events.lookup k = some ev) ∧ ev.UserID = userID ∧ ev.Archived = false ∧
        d.midnight.nsec ≤ ev.Date.nsec ∧
        ev.Date.nsec < d.midnight.nsec + 7 * 24 * time.Hour)) ∧
    (EventService.GetEventsForDay ⟨sampleRepo⟩ "user1" jan15 = ([sampleEvent], none) ∧
      EventService.GetEventsForDay ⟨sampleRepo⟩ "user1" jan16 = ([], none)) ∧
    (∀ (i : Int) (ev : Event), 0 ≤ i → i < 7 → (∃ k, s.repo.events.lookup k = some ev) →
      ev.UserID = userID → ev.Archived = false → ev.Date = d.Add (i * (24 * time.Hour)) →
      ev ∈ (s.GetEventsForWeek userID d).1) := by
  have hb := nsec_dayNumber_bounds d
  have hmid : d.midnight.nsec = d.dayNumber * Time.nsecPerDay := rfl
  have hf := midnight_fields d
  have hc := clock_midnight d.dayNumber
  have hn := nanosecond_midnight d.dayNumber
  refine ⟨⟨hf.1, hf.2.1, hf.2.2, hc.1, hc.2.1, hc.2.2, hn, hb.1, hb.2⟩,
    GetEventsForDay_eq s userID d, ?_, GetEventsForWeek_eq s userID d, ?_, ⟨?_, ?_⟩, ?_⟩
  · intro ev
    rw [GetEventsForDay_eq, mem_GetByDateRange]
    rfl
  · intro ev
    rw [GetEventsForWeek_eq, mem_GetByDateRange]
    rfl
  · decide
  · decide
  · intro i ev hi0 hi1 hst hu ha hd
    rw [GetEventsForWeek_eq, mem_GetByDateRange]
    refine ⟨hst, hu, ha, ?_, ?_⟩
    · rw [hd]
      show d.midnight.nsec ≤ d.nsec + i * (24 * time.Hour)
      have : (0 : Int) ≤ i * (24 * time.Hour) := by unfold time.Hour; positivity
      omega
    · rw [hd]
      show d.nsec + i * (24 * time.Hour) < d.midnight.nsec + 7 * 24 * time.Hour
      unfold time.Hour at hb ⊢
      omega

/-- Witness of C13: the store of the test `TestEventService_GetEventsForWeek`,
seven events on the seven days from 2024-01-15. The week query from 2024-01-15
returns seven events, the event of the seventh day among them, and the day
query returns the event of the first day alone. -/
theorem GetEventsForDay_Week_exact_witness :
    (EventService.GetEventsForWeek ⟨weekRepo⟩ "user1" jan15).1.length = 7 ∧
    (EventService.GetEventsForDay ⟨weekRepo⟩ "user1" jan15).1 = [weekEvent 0] ∧
    weekEvent 6 ∈ (EventService.GetEventsForWeek ⟨weekRepo⟩ "user1" jan15).1 :=
  ⟨by decide, by decide,
    (GetEventsForDay_Week_exact ⟨weekRepo⟩ "user1" jan15).2.2.2.2.2.2 6 (weekEvent 6)
      (by decide) (by decide) ⟨"user1:w6", by decide⟩ rfl rfl rfl⟩

set_option maxRecDepth 10000 in
/-- Counterexample to C14 as stated: the date 2017-10-15 12:00:00 in a
location whose clocks go from 00:00 to 01:00 on 2017-10-01. The time 00:00:00
on day 1 of October does not exist there, and `time.Date` returns for it the
time 2017-09-30 23:00:00; one month after it is 2017-10-30 23:00:00, so that
`end` is that same time and the queried range is empty: `start` is not on day
1 of the month of the date, `start` is not before `end`, and an event of the
user dated 2017-10-15, in the month of the date, is not returned. -/
theorem GetEventsForMonth_zone_transition :
    (oct15.abs asuncion).Format = "20171015120000" ∧
    ((time.DateIn (oct15.abs asuncion).Year (oct15.abs asuncion).Month 1 0 0 0 0 asuncion).abs
      asuncion).Format = "20170930230000" ∧
    (((time.DateIn (oct15.abs asuncion).Year (oct15.abs asuncion).Month 1 0 0 0 0
      asuncion).AddDateIn 0 1 0 asuncion).abs asuncion).Format = "20171030230000" ∧
    EventService.GetEventsForMonth ⟨octoberRepo⟩ "user1" oct15 asuncion =
      octoberRepo.GetByDateRange "user1" (time.DateIn 2017 10 1 0 0 0 0 asuncion)
        (time.DateIn 2017 10 1 0 0 0 0 asuncion) ∧
    octoberRepo.events.lookup "user1:o1" = some octoberEvent ∧
    octoberEvent.UserID = "user1" ∧ octoberEvent.Archived = false ∧
    (octoberEvent.Date.abs asuncion).Year = (oct15.abs asuncion).Year ∧
    (octoberEvent.Date.abs asuncion).Month = (oct15.abs asuncion).Month ∧
    EventService.GetEventsForMonth ⟨octoberRepo⟩ "user1" oct15 asuncion = ([], none) := by
  refine ⟨by decide, by decide, by decide, rfl, by decide, rfl, rfl, rfl, rfl, by decide⟩

/-- C14, amended: for every date `d` in a location whose offset does not
change near the two boundaries of the month of `d`, as in UTC and in every
fixed zone: with `B` a bound in seconds on the offsets of the location, less
than 14 days, the offset does not change within `2 * B` seconds of 00:00:00
UTC on day 1 of the month of `d`, nor of the following month. Then
`GetEventsForMonth` is the range query from `start`, the time 00:00:00 on day 1
of the month of `d`, to `end`, the time 00:00:00 on day 1 of the following
month (January of the next year when the month of `d` is December); `start` is
before `end`; and the result is exactly the stored events of the user that are
not archived and whose date has the year and the month of `d`. The years,
months, days and times of day are those read in the location of `d`. -/
theorem GetEventsForMonth_exact (s : EventService) (userID : String) (d : Time)
    (loc : Location) (B y m y2 m2 : Int)
    (hy : (d.abs loc).Year = y) (hm : (d.abs loc).Month = m)
    (hy2 : y2 = if m = 12 then y + 1 else y) (hm2 : m2 = if m = 12 then 1 else m + 1)
    (hB : B < 14 * 86400) (hb : loc.Bounded B)
    (hs : loc.SteadyAround B (time.Date y m 1 0 0 0 0))
    (he : loc.SteadyAround B (time.Date y2 m2 1 0 0 0 0)) :
    s.GetEventsForMonth userID d loc =
      s.repo.GetByDateRange userID (time.DateIn y m 1 0 0 0 0 loc)
        (time.DateIn y2 m2 1 0 0 0 0 loc) ∧
    (((time.DateIn y m 1 0 0 0 0 loc).abs loc).Year = y ∧
      ((time.DateIn y m 1 0 0 0 0 loc).abs loc).Month = m ∧
      ((time.DateIn y m 1 0 0 0 0 loc).abs loc).Day = 1 ∧
      ((time.DateIn y m 1 0 0 0 0 loc).abs loc).Hour = 0 ∧
      ((time.DateIn y m 1 0 0 0 0 loc).abs loc).Minute = 0 ∧
      ((time.DateIn y m 1 0 0 0 0 loc).abs loc).Second = 0 ∧
      ((time.DateIn y m 1 0 0 0 0 loc).abs loc).Nanosecond = 0) ∧
    (((time.DateIn y2 m2 1 0 0 0 0 loc).abs loc).Year = y2 ∧
      ((time.DateIn y2 m2 1 0 0 0 0 loc).abs loc).Month = m2 ∧
      ((time.DateIn y2 m2 1 0 0 0 0 loc).abs loc).Day = 1 ∧
      ((time.DateIn y2 m2 1 0 0 0 0 loc).abs loc).Hour = 0 ∧
      ((time.DateIn y2 m2 1 0 0 0 0 loc).abs loc).Minute = 0 ∧
      ((time.DateIn y2 m2 1 0 0 0 0 loc).abs loc).Second = 0 ∧
      ((time.DateIn y2 m2 1 0 0 0 0 loc).abs loc).Nanosecond = 0) ∧
    (time.DateIn y m 1 0 0 0 0 loc).nsec < (time.DateIn y2 m2 1 0 0 0 0 loc).nsec ∧
    (s.GetEventsForMonth userID d loc).2 = none ∧
    (∀ ev : Event, ev ∈ (s.GetEventsForMonth userID d loc).1 ↔
      ((∃ k, s.repo.events.lookup k = some ev) ∧ ev.UserID = userID ∧ ev.Archived = false ∧
        (ev.Date.abs loc).Year = (d.abs loc).Year ∧
        (ev.Date.abs loc).Month = (d.abs loc).Month)) := by
  obtain ⟨hm0, hm1, _⟩ := civil_spec (d.abs loc)
  rw [hm] at hm0 hm1
  have hr : 1 ≤ m2 ∧ m2 ≤ 12 := by
    rw [hm2]
    split_ifs <;> omega
  have heq := GetEventsForMonth_eq s userID d loc B y m y2 m2 hy hm hy2 hm2 hb hs he
  obtain ⟨a1, a2, _⟩ := firstOfMonth_located y m loc B hb hs
  obtain ⟨b1, b2, _⟩ := firstOfMonth_located y2 m2 loc B hb he
  have hf := firstOfMonth_fields y m hm0 hm1
  have hc := firstOfMonth_clock y m
  have hf2 := firstOfMonth_fields y2 m2 hr.1 hr.2
  have hc2 := firstOfMonth_clock y2 m2
  have hnext : monthStart y (m + 1) = monthStart y2 m2 := by
    rw [monthStart_next, hy2, hm2]
  have hlen := monthStart_add_le_next y m
  rw [hnext] at hlen
  refine ⟨heq, ?_, ?_, ?_, ?_, ?_⟩
  · rw [a2]
    exact ⟨hf.1, hf.2.1, hf.2.2, hc.1, hc.2.1, hc.2.2.1, hc.2.2.2⟩
  · rw [b2]
    exact ⟨hf2.1, hf2.2.1, hf2.2.2, hc2.1, hc2.2.1, hc2.2.2.1, hc2.2.2.2⟩
  · rw [a1, b1]
    have h1 := hb (time.Date y m 1 0 0 0 0).Unix
    have h2 := hb (time.Date y2 m2 1 0 0 0 0).Unix
    show monthStart y m * Time.nsecPerDay -
        (loc.lookup (time.Date y m 1 0 0 0 0).Unix).1 * 1000000000 <
      monthStart y2 m2 * Time.nsecPerDay -
        (loc.lookup (time.Date y2 m2 1 0 0 0 0).Unix).1 * 1000000000
    unfold Time.nsecPerDay
    omega
  · rw [heq]
    rfl
  · intro ev
    have e1 := le_abs_iff loc B _ ev.Date hb hs
    have e2 := abs_lt_iff loc B _ ev.Date hb he
    rw [firstOfMonth_nsec] at e1 e2
    rw [heq, mem_GetByDateRange, a1, b1]
    simp only
    rw [e1, e2, midnight_le_iff, lt_midnight_iff, ← hnext,
      month_of_day (ev.Date.abs loc) y m hm0 hm1, hy, hm]

set_option maxRecDepth 10000 in
/-- Witness of the amended C14. In UTC, the location of every date that the
handlers and the tests pass, the month query for a date in January 2024
returns the event dated 2024-01-15. In the fixed zone nine hours east of UTC
the range for 2024-02-01 00:30:00 starts at 2024-02-01 00:00:00 of that zone,
and the event dated 2024-02-10 there is returned. In a location with a
transition on 2017-10-01, whose offsets are bounded by four hours and do not
change within eight hours of the two boundaries of November 2017, the month
query for a date in November 2017 returns the event dated 2017-11-30 23:30:00
there. -/
theorem GetEventsForMonth_exact_witness :
    sampleEvent ∈ (EventService.GetEventsForMonth ⟨sampleRepo⟩ "user1" jan16 time.UTC).1 ∧
    ((time.DateIn 2024 2 1 0 0 0 0 (time.FixedZone 32400)).abs (time.FixedZone 32400)).Format =
      "20240201000000" ∧
    (time.DateIn 2024 2 1 0 0 0 0 (time.FixedZone 32400)).Format = "20240131150000" ∧
    tokyoEvent ∈
      (EventService.GetEventsForMonth ⟨tokyoRepo⟩ "user1" feb1Tokyo (time.FixedZone 32400)).1 ∧
    asuncion.Bounded 14400 ∧
    asuncion.SteadyAround 14400 (time.Date 2017 11 1 0 0 0 0) ∧
    asuncion.SteadyAround 14400 (time.Date 2017 12 1 0 0 0 0) ∧
    novemberEvent ∈ (EventService.GetEventsForMonth ⟨novemberRepo⟩ "user1" nov15 asuncion).1 :=
  ⟨((GetEventsForMonth_exact ⟨sampleRepo⟩ "user1" jan16 time.UTC 0 2024 1 2024 2
        (by decide) (by decide) (by decide) (by decide) (by decide)
        (fixedZone_bounded 0 0 (by decide) (by decide)) (fixedZone_steady 0 0 _)
        (fixedZone_steady 0 0 _)).2.2.2.2.2 sampleEvent).2
      ⟨⟨"user1:e1", by decide⟩, rfl, rfl, by decide, by decide⟩,
    by decide, by decide,
    ((GetEventsForMonth_exact ⟨tokyoRepo⟩ "user1" feb1Tokyo (time.FixedZone 32400) 32400
        2024 2 2024 3 (by decide) (by decide) (by decide) (by decide) (by decide)
        (fixedZone_bounded 32400 32400 (by decide) (by decide)) (fixedZone_steady 32400 32400 _)
        (fixedZone_steady 32400 32400 _)).2.2.2.2.2 tokyoEvent).2
      ⟨⟨"user1:t1", by decide⟩, rfl, rfl, by decide, by decide⟩,
    asuncion_bounded, asuncion_steady _ (by decide), asuncion_steady _ (by decide),
    ((GetEventsForMonth_exact ⟨novemberRepo⟩ "user1" nov15 asuncion 14400 2017 11 2017 12
        (by decide) (by decide) (by decide) (by decide) (by decide)
        asuncion_bounded (asuncion_steady _ (by decide)) (asuncion_steady _ (by decide))
        ).2.2.2.2.2 novemberEvent).2
      ⟨⟨"user1:n1", by decide⟩, rfl, rfl, by decide, by decide⟩⟩

/-- C15: for every task taken from the intake queue at the dispatcher clock
reading `now`: when the time of the task is not after `now`, the sender is
called exactly once with the task and no delay routine is started; when it is
after `now`, the sender is not called and the task is handed to
`scheduleReminder`; so the sender is called if and only if the time of the task
is not after `now`. When the sender returns an error, exactly one error entry
is logged; in every case the task leaves the queue and is not put back. -/
theorem process_dispatch (sender : ReminderTask → Option Error) (now : Time)
    (task : ReminderTask) (rest sent scheduled : List ReminderTask) (logged : List LogCall)
    (done : Bool) :
    (ReminderWorker.process sender now ⟨task :: rest, sent, logged, scheduled, done⟩).taskChan
      = rest ∧
    (task.Time.nsec ≤ now.nsec →
      (ReminderWorker.process sender now ⟨task :: rest, sent, logged, scheduled, done⟩).sent
        = sent ++ [task] ∧
      (ReminderWorker.process sender now ⟨task :: rest, sent, logged, scheduled, done⟩).scheduled
        = scheduled) ∧
    (now.nsec < task.Time.nsec →
      (ReminderWorker.process sender now ⟨task :: rest, sent, logged, scheduled, done⟩).sent
        = sent ∧
      (ReminderWorker.process sender now ⟨task :: rest, sent, logged, scheduled, done⟩).scheduled
        = scheduled ++ [task] ∧
      (ReminderWorker.process sender now ⟨task :: rest, sent, logged, scheduled, done⟩).logged
        = logged) ∧
    ((ReminderWorker.process sender now ⟨task :: rest, sent, logged, scheduled, done⟩).sent
        = sent ++ [task] ↔ task.Time.nsec ≤ now.nsec) ∧
    (task.Time.nsec ≤ now.nsec → ∀ err, sender task = some err →
      (ReminderWorker.process sender now ⟨task :: rest, sent, logged, scheduled, done⟩).logged
        = logged ++ [⟨LogLevel.LevelError, "Failed to send reminder",
            [("error", err.Error), ("event_id", task.EventID)]⟩]) ∧
    (task.Time.nsec ≤ now.nsec → sender task = none →
      (ReminderWorker.process sender now ⟨task :: rest, sent, logged, scheduled, done⟩).logged
        = logged) := by
  have hcond : (task.Time.Before now || task.Time.Equal now) = true ↔
      task.Time.nsec ≤ now.nsec := by
    simp only [Time.Before, Time.Equal, Bool.or_eq_true, decide_eq_true_eq]
    omega
  by_cases hdue : task.Time.nsec ≤ now.nsec
  · have hc := hcond.2 hdue
    cases hs : sender task with
    | none =>
      simp [ReminderWorker.process, hc, hs, hdue]
    | some err =>
      simp [ReminderWorker.process, hc, hs, hdue]
  · have hc : ¬ (task.Time.Before now || task.Time.Equal now) = true := fun h => hdue (hcond.1 h)
    have hlt : now.nsec < task.Time.nsec := by omega
    simp [ReminderWorker.process, hc, hdue, hlt]

/-- C16, the code at the failing input: the dispatcher takes `sampleTask`, due
at 2024-01-15 00:00:00.000000001, at the clock reading 00:00:00 and hands it to
`scheduleReminder` without calling the sender; `scheduleReminder` reads the
clock one nanosecond later, at the time of the task, finds no positive delay
and returns without sending the task to the queue. A reading before the time
of the task makes it send the task. -/
theorem scheduleReminder_drops_due_task :
    (ReminderWorker.process okSender jan15 sampleWorker).scheduled = [sampleTask] ∧
    (ReminderWorker.process okSender jan15 sampleWorker).sent = [] ∧
    (ReminderWorker.process okSender jan15 sampleWorker).taskChan = [] ∧
    jan15.nsec ≤ (jan15.Add 1).nsec ∧
    ReminderWorker.scheduleReminder (jan15.Add 1) sampleTask = none ∧
    ReminderWorker.scheduleReminder jan15 sampleTask = some (1, sampleTask) := by
  decide

/-- C17: for a handler whose channel has a positive capacity, and whose
dispatcher waits for a task only when the buffer of the channel is empty: when
the service call of the `CreateEvent` handler or of the `UpdateEvent` handler
succeeds for a request with a reminder time, and the buffer holds fewer tasks
than the capacity, the task made of the identifier, user and text of the
returned event and of the reminder time is accepted: it is appended to the
buffer, or, when the dispatcher is waiting, handed to the dispatcher, so that
the accepted tasks in their order of acceptance, those handed to the
dispatcher and then those in the buffer, are the former ones followed by the
task; nothing is logged. When the buffer is at capacity, the channel is left
unchanged and one error entry `Reminder channel full` is logged. The response
is the success response in every case. -/
theorem handlers_enqueue_best_effort (h : EventHandler) (clock : Nat → Time)
    (userID eventID text : String) (date rt : Time) (service : EventService) (event : Event)
    (hcap : 0 < h.capacity) (hwf : h.receiving = true → h.reminderChan = []) :
    (h.service.CreateEvent clock userID text date (some rt) = some (service, some event, none) →
      (h.reminderChan.length < h.capacity →
        (h.receiving = false →
          h.CreateEvent clock userID text date (some rt) =
            some ({ h with
                    service := service
                    reminderChan := h.reminderChan ++
                      [⟨event.ID, event.UserID, event.Text, rt⟩] },
              Response.sendSuccess
                [("event_id", event.ID), ("message", "Event created successfully")])) ∧
        (h.receiving = true →
          h.CreateEvent clock userID text date (some rt) =
            some ({ h with
                    service := service
                    receiving := false
                    received := h.received ++ [⟨event.ID, event.UserID, event.Text, rt⟩] },
              Response.sendSuccess
                [("event_id", event.ID), ("message", "Event created successfully")])) ∧
        ∃ h1, h.CreateEvent clock userID text date (some rt) =
            some (h1, Response.sendSuccess
              [("event_id", event.ID), ("message", "Event created successfully")]) ∧
          h1.received ++ h1.reminderChan =
            h.received ++ h.reminderChan ++ [⟨event.ID, event.UserID, event.Text, rt⟩] ∧
          h1.logged = h.logged ∧ h1.service = service ∧ h1.capacity = h.capacity) ∧
      (h.capacity ≤ h.reminderChan.length →
        h.CreateEvent clock userID text date (some rt) =
          some ({ h with
                  service := service
                  logged := h.logged ++
                    [⟨LogLevel.LevelError, "Reminder channel full", []⟩] },
            Response.sendSuccess
              [("event_id", event.ID), ("message", "Event created successfully")]))) ∧
    (h.service.UpdateEvent clock userID eventID text date (some rt) =
        (service, some event, none) →
      (h.reminderChan.length < h.capacity →
        (h.receiving = false →
          h.UpdateEvent clock userID eventID text date (some rt) =
            some ({ h with
                    service := service
                    reminderChan := h.reminderChan ++
                      [⟨event.ID, event.UserID, event.Text, rt⟩] },
              Response.sendSuccess [("message", "Event updated successfully")])) ∧
        (h.receiving = true →
          h.UpdateEvent clock userID eventID text date (some rt) =
            some ({ h with
                    service := service
                    receiving := false
                    received := h.received ++ [⟨event.ID, event.UserID, event.Text, rt⟩] },
              Response.sendSuccess [("message", "Event updated successfully")])) ∧
        ∃ h1, h.UpdateEvent clock userID eventID text date (some rt) =
            some (h1, Response.sendSuccess [("message", "Event updated successfully")]) ∧
          h1.received ++ h1.reminderChan =
            h.received ++ h.reminderChan ++ [⟨event.ID, event.UserID, event.Text, rt⟩] ∧
          h1.logged = h.logged ∧ h1.service = service ∧ h1.capacity = h.capacity) ∧
      (h.capacity ≤ h.reminderChan.length →
        h.UpdateEvent clock userID eventID text date (some rt) =
          some ({ h with
                  service := service
                  logged := h.logged ++
                    [⟨LogLevel.LevelError, "Reminder channel full", []⟩] },
            Response.sendSuccess [("message", "Event updated successfully")]))) := by
  have hc : h.service.CreateEvent clock userID text date (some rt) =
        some (service, some event, none) →
      h.CreateEvent clock userID text date (some rt) =
        some (EventHandler.sendOrLog { h with service := service }
            ⟨event.ID, event.UserID, event.Text, rt⟩,
          Response.sendSuccess
            [("event_id", event.ID), ("message", "Event created successfully")]) := by
    intro hsvc
    unfold EventHandler.CreateEvent
    rw [hsvc]
  have hu : h.service.UpdateEvent clock userID eventID text date (some rt) =
        (service, some event, none) →
      h.UpdateEvent clock userID eventID text date (some rt) =
        some (EventHandler.sendOrLog { h with service := service }
            ⟨event.ID, event.UserID, event.Text, rt⟩,
          Response.sendSuccess [("message", "Event updated successfully")]) := by
    intro hsvc
    unfold EventHandler.UpdateEvent
    rw [hsvc]
  have hroomCase : h.reminderChan.length < h.capacity →
      (h.receiving = false →
        EventHandler.sendOrLog { h with service := service }
            ⟨event.ID, event.UserID, event.Text, rt⟩ =
          { h with
            service := service
            reminderChan := h.reminderChan ++ [⟨event.ID, event.UserID, event.Text, rt⟩] }) ∧
      (h.receiving = true →
        EventHandler.sendOrLog { h with service := service }
            ⟨event.ID, event.UserID, event.Text, rt⟩ =
          { h with
            service := service
            receiving := false
            received := h.received ++ [⟨event.ID, event.UserID, event.Text, rt⟩] }) ∧
      (EventHandler.sendOrLog { h with service := service }
            ⟨event.ID, event.UserID, event.Text, rt⟩).received ++
          (EventHandler.sendOrLog { h with service := service }
            ⟨event.ID, event.UserID, event.Text, rt⟩).reminderChan =
        h.received ++ h.reminderChan ++ [⟨event.ID, event.UserID, event.Text, rt⟩] ∧
      (EventHandler.sendOrLog { h with service := service }
            ⟨event.ID, event.UserID, event.Text, rt⟩).logged = h.logged ∧
      (EventHandler.sendOrLog { h with service := service }
            ⟨event.ID, event.UserID, event.Text, rt⟩).service = service ∧
      (EventHandler.sendOrLog { h with service := service }
            ⟨event.ID, event.UserID, event.Text, rt⟩).capacity = h.capacity := by
    intro hroom
    rcases Bool.eq_false_or_eq_true h.receiving with hr | hr
    · have e := sendOrLog_receiving { h with service := service }
        ⟨event.ID, event.UserID, event.Text, rt⟩ hr
      rw [e]
      simp [hr, hwf hr]
    · have e := sendOrLog_room { h with service := service }
        ⟨event.ID, event.UserID, event.Text, rt⟩ hr hroom
      rw [e]
      simp [hr]
  have hfullCase : h.capacity ≤ h.reminderChan.length →
      EventHandler.sendOrLog { h with service := service }
          ⟨event.ID, event.UserID, event.Text, rt⟩ =
        { h with
          service := service
          logged := h.logged ++ [⟨LogLevel.LevelError, "Reminder channel full", []⟩] } := by
    intro hfull
    have hr := not_receiving_of_full h.receiving h.reminderChan.length h.capacity
      h.reminderChan hwf rfl hcap hfull
    exact sendOrLog_full { h with service := service } _ hr hfull
  refine ⟨fun hsvc => ⟨fun hroom => ?_, fun hfull => ?_⟩,
    fun hsvc => ⟨fun hroom => ?_, fun hfull => ?_⟩⟩
  · obtain ⟨h1, h2, h3, h4, h5, h6⟩ := hroomCase hroom
    refine ⟨fun hr => ?_, fun hr => ?_, _, hc hsvc, h3, h4, h5, h6⟩
    · rw [hc hsvc, h1 hr]
    · rw [hc hsvc, h2 hr]
  · rw [hc hsvc, hfullCase hfull]
  · obtain ⟨h1, h2, h3, h4, h5, h6⟩ := hroomCase hroom
    refine ⟨fun hr => ?_, fun hr => ?_, _, hu hsvc, h3, h4, h5, h6⟩
    · rw [hu hsvc, h1 hr]
    · rw [hu hsvc, h2 hr]
  · rw [hu hsvc, hfullCase hfull]


/-- Witness of C17: a handler over the empty store whose channel has capacity
1. The first request with a reminder time puts its task into the buffer, or
hands it to the dispatcher when the dispatcher is waiting; a request that
arrives on the full buffer leaves the channel as it is and logs
`Reminder channel full`; all are answered with the success response. -/
theorem handlers_enqueue_best_effort_witness :
    EventHandler.CreateEvent ⟨⟨NewMemoryRepository⟩, [], 1, false, [], []⟩ firstClock "user1"
        "Event 1" jan15 (some jan16) =
      some (⟨afterRemindedCreate, [remindedTask], 1, false, [], []⟩,
        Response.sendSuccess
          [("event_id", "20240115103000-X7hrBL"), ("message", "Event created successfully")]) ∧
    EventHandler.CreateEvent ⟨⟨NewMemoryRepository⟩, [], 1, true, [], []⟩ firstClock "user1"
        "Event 1" jan15 (some jan16) =
      some (⟨afterRemindedCreate, [], 1, false, [remindedTask], []⟩,
        Response.sendSuccess
          [("event_id", "20240115103000-X7hrBL"), ("message", "Event created successfully")]) ∧
    (EventHandler.UpdateEvent ⟨afterRemindedCreate, [remindedTask], 1, false, [], []⟩
        secondClock "user1" "20240115103000-X7hrBL" "Event 1" jan15 (some jan16)).map
        (fun r => (r.1.reminderChan, r.1.received, r.1.logged, r.2)) =
      some ([remindedTask], [], [⟨LogLevel.LevelError, "Reminder channel full", []⟩],
        Response.sendSuccess [("message", "Event updated successfully")]) :=
  ⟨(((handlers_enqueue_best_effort ⟨⟨NewMemoryRepository⟩, [], 1, false, [], []⟩ firstClock
      "user1" "" "Event 1" jan15 jan16 afterRemindedCreate remindedEvent Nat.zero_lt_one
      (fun _ => rfl)).1
        (rfl : EventService.CreateEvent ⟨NewMemoryRepository⟩ firstClock "user1" "Event 1"
          jan15 (some jan16) = some (afterRemindedCreate, some remindedEvent, none))).1
        Nat.zero_lt_one).1 rfl,
    (((handlers_enqueue_best_effort ⟨⟨NewMemoryRepository⟩, [], 1, true, [], []⟩ firstClock
      "user1" "" "Event 1" jan15 jan16 afterRemindedCreate remindedEvent Nat.zero_lt_one
      (fun _ => rfl)).1
        (rfl : EventService.CreateEvent ⟨NewMemoryRepository⟩ firstClock "user1" "Event 1"
          jan15 (some jan16) = some (afterRemindedCreate, some remindedEvent, none))).1
        Nat.zero_lt_one).2.1 rfl,
    by decide⟩

/-- C18: on an open sink whose channel has a positive capacity, and whose
drain worker waits for an entry only when the buffer of the channel is empty,
`Log` returns (it does not panic), and either the buffer holds fewer entries
than the capacity and the entry with that level, message and fields, stamped
with the clock reading, is accepted: it is appended to the tail of the buffer,
or, when the drain worker is waiting, handed to the drain worker, so that the
accepted entries in their order of acceptance, those handed to the drain
worker and then those in the buffer, are the former ones followed by the
entry, with the output unchanged; or the buffer is full and the channel is
left unchanged while the fallback line, which carries the level and the
message, is appended to the output. One round of the drain worker prints the
first of the accepted entries and keeps the others, and the drain worker run
over all the accepted entries prints them in the order in which they were
accepted. -/
theorem log_sink_never_drops (l : AsyncLogger) (now : Time) (level : LogLevel)
    (message : String) (fields : List (String × String)) (hopen : l.closed = false)
    (hcap : 0 < l.capacity) (hwf : l.receiving = true → l.logChan = []) :
    (l.logChan.length < l.capacity →
      (l.receiving = false →
        l.Log now level message fields =
          some { l with logChan := l.logChan ++ [⟨level, now, message, fields⟩] }) ∧
      (l.receiving = true →
        l.Log now level message fields =
          some { l with receiving := false
                        received := l.received ++ [⟨level, now, message, fields⟩] }) ∧
      ∃ l1, l.Log now level message fields = some l1 ∧
        l1.received ++ l1.logChan = l.received ++ l.logChan ++ [⟨level, now, message, fields⟩] ∧
        l1.output = l.output ∧ l1.capacity = l.capacity ∧ l1.closed = false) ∧
    (l.capacity ≤ l.logChan.length →
      l.Log now level message fields =
        some { l with output := l.output ++
          ["[FALLBACK] " ++ levelString level ++ ": " ++ message ++ "\n"] }) ∧
    (∀ entry rest, l.received ++ l.logChan = entry :: rest →
      l.processOne.output = l.output ++ [AsyncLogger.render entry] ∧
      l.processOne.received ++ l.processOne.logChan = rest) ∧
    (l.process (l.received.length + l.logChan.length)).received = [] ∧
    (l.process (l.received.length + l.logChan.length)).logChan = [] ∧
    (l.process (l.received.length + l.logChan.length)).output =
      l.output ++ (l.received ++ l.logChan).map AsyncLogger.render := by
  have hdrain := process_drain l.received l.logChan l.capacity l.closed l.receiving l.output
  rw [show (⟨l.logChan, l.capacity, l.closed, l.receiving, l.received, l.output⟩ : AsyncLogger)
    = l from rfl] at hdrain
  refine ⟨?_, ?_, ?_, ?_, ?_, ?_⟩
  · intro hroom
    rcases Bool.eq_false_or_eq_true l.receiving with hr | hr
    · have e := Log_receiving l now level message fields hopen hr
      refine ⟨fun hr2 => ?_, fun _ => e, _, e, ?_, rfl, rfl, hopen⟩
      · rw [hr] at hr2
        cases hr2
      · simp [hwf hr]
    · have e := Log_room l now level message fields hopen hr hroom
      refine ⟨fun _ => e, fun hr2 => ?_, _, e, ?_, rfl, rfl, hopen⟩
      · rw [hr] at hr2
        cases hr2
      · simp
  · intro hfull
    have hr := not_receiving_of_full l.receiving l.logChan.length l.capacity l.logChan hwf rfl
      hcap hfull
    exact Log_full l now level message fields hopen hr hfull
  · intro entry rest hq
    unfold AsyncLogger.processOne
    cases hh : l.received with
    | cons e r =>
      rw [hh] at hq
      simp only [List.cons_append, List.cons.injEq] at hq
      simp [hq.1, hq.2]
    | nil =>
      rw [hh] at hq
      simp only [List.nil_append] at hq
      simp [hq]
  · rw [hdrain]
  · rw [hdrain]
  · rw [hdrain]

/-- Witness of C18: a sink of capacity 1. The first entry is put into the
buffer, the second is printed on the fallback path, and the drain worker then
prints the buffered entry; when the drain worker is waiting, the entry is
handed to it and it prints the entry in its next round. -/
theorem log_sink_never_drops_witness :
    (AsyncLogger.NewAsyncLogger 1).closed = false ∧
    (AsyncLogger.NewAsyncLogger 1).Log jan15 LogLevel.LevelInfo "Starting server" [] =
      some ⟨[⟨LogLevel.LevelInfo, jan15, "Starting server", []⟩], 1, false, false, [], []⟩ ∧
    AsyncLogger.Log ⟨[⟨LogLevel.LevelInfo, jan15, "Starting server", []⟩], 1, false, false, [],
        []⟩ jan16 LogLevel.LevelError "Reminder channel full" [] =
      some ⟨[⟨LogLevel.LevelInfo, jan15, "Starting server", []⟩], 1, false, false, [],
        ["[FALLBACK] ERROR: Reminder channel full\n"]⟩ ∧
    (AsyncLogger.process ⟨[⟨LogLevel.LevelInfo, jan15, "Starting server", []⟩], 1, false, false,
        [], ["[FALLBACK] ERROR: Reminder channel full\n"]⟩ 1).output =
      ["[FALLBACK] ERROR: Reminder channel full\n",
        "[2024-01-15 00:00:00] [INFO] Starting server\n"] ∧
    (AsyncLogger.NewAsyncLogger 1).processOne = ⟨[], 1, false, true, [], []⟩ ∧
    AsyncLogger.Log ⟨[], 1, false, true, [], []⟩ jan15 LogLevel.LevelInfo "Starting server" [] =
      some ⟨[], 1, false, false, [⟨LogLevel.LevelInfo, jan15, "Starting server", []⟩], []⟩ ∧
    AsyncLogger.processOne
        ⟨[], 1, false, false, [⟨LogLevel.LevelInfo, jan15, "Starting server", []⟩], []⟩ =
      ⟨[], 1, false, false, [], ["[2024-01-15 00:00:00] [INFO] Starting server\n"]⟩ :=
  ⟨rfl,
    ((log_sink_never_drops (AsyncLogger.NewAsyncLogger 1) jan15 LogLevel.LevelInfo
      "Starting server" [] rfl (by decide) (fun _ => rfl)).1 (by decide)).1 rfl,
    (log_sink_never_drops ⟨[⟨LogLevel.LevelInfo, jan15, "Starting server", []⟩], 1, false,
      false, [], []⟩ jan16 LogLevel.LevelError "Reminder channel full" [] rfl (by decide)
      (fun h => nomatch h)).2.1 (by decide),
    by decide, by decide,
    ((log_sink_never_drops ⟨[], 1, false, true, [], []⟩ jan15 LogLevel.LevelInfo
      "Starting server" [] rfl (by decide) (fun _ => rfl)).1 (by decide)).2.1 rfl,
    by decide⟩

/-- Counterexample to C19 as stated: `Stop` on a cleanup worker and on a
reminder worker that were already stopped is `close` of a closed channel and
panics. -/
theorem Stop_twice_panics :
    sampleCleanup.Stop = some { sampleCleanup with done := true } ∧
    CleanupWorker.Stop { sampleCleanup with done := true } = none ∧
    sampleWorker.Stop = some { sampleWorker with done := true } ∧
    ReminderWorker.Stop { sampleWorker with done := true } = none := by
  decide

/-- C19, amended: `Stop` on a cleanup worker or a reminder worker whose stop
channel is open completes without panic, closes the channel and changes
nothing else, so that the worker is stopped; `Stop` on a worker whose stop
channel is closed panics. -/
theorem Stop_once (c : CleanupWorker) (w : ReminderWorker) :
    (c.done = false → c.Stop = some { c with done := true }) ∧
    (c.done = true → c.Stop = none) ∧
    (w.done = false → w.Stop = some { w with done := true }) ∧
    (w.done = true → w.Stop = none) := by
  refine ⟨?_, ?_, ?_, ?_⟩ <;> intro h <;>
    simp [CleanupWorker.Stop, ReminderWorker.Stop, closeChan, h]

/-- C20, the code at the failing input: the store reached from the empty store
by `Create` of an event of user `a:b` with identifier `c`. The pairs `a:b`, `c`
and `a`, `b:c` have the same key; `GetByID` for user `a` and identifier `b:c`
succeeds and returns the event of user `a:b`; `Delete` for user `a` and
identifier `b:c` succeeds and removes that event. -/
theorem key_collision_crosses_users :
    key "a:b" "c" = key "a" "b:c" ∧
    NewMemoryRepository.Create colonEvent = (colonRepo, none) ∧
    colonRepo.GetByID "a" "b:c" = (some colonEvent, none) ∧
    colonEvent.UserID = "a:b" ∧ colonEvent.ID = "c" ∧
    (colonRepo.Delete "a" "b:c").2 = none ∧
    (colonRepo.Delete "a" "b:c").1.GetByID "a:b" "c" = (none, some Error.ErrEventNotFound) :=
  ⟨by decide, rfl, by decide, rfl, rfl, by decide, by decide⟩

end EventCalendar
